import Mathlib

/-!
# Verification of the av-map-data event-projection engine

This file gives a shallow embedding, in Lean 4, of the service-area
projection engine of the `av-map-data` repository: the function
`buildServiceAreasFromEvents` (together with its helpers
`transformEventData` and `parseInlineCoordinates`) that replays the
`av_events` log into a list of materialized service states.

Modelling conventions, chosen once for the whole file:

* JavaScript strings are `String`; an absent object key (JS `undefined`)
  is `Option.none`.  `a || b` on strings is `jsOr` (the empty string is
  falsy); the object-spread rule "a present key overrides" is `spreadF`.
* Calendar dates enter the engine only through `new Date(s).getTime()`
  (for sorting and equality tests) and `date.toISOString()` (stored on
  states).  Both are injective on the timestamps the engine compares, so
  dates are modelled by their epoch timestamp, a `Nat`, and
  `toISOString` is the identity on that timestamp.
* `area_square_miles` values are opaque numbers whose only observable
  uses in the engine are presence and JS falsiness; they are modelled as
  `Nat` (0 is the falsy number).
* The JS `Map` `currentServiceStates` is an association list; the array
  `allStates` is a `List`.  In the source, the map and the array can
  reference the *same* mutable state object; where the source writes
  through one alias and reads through the other (the `service_ended`
  branch) the embedding rebuilds the shared value explicitly, documented
  at the definition.
* `Array.prototype.sort` (stable since ES2019) on the date key is
  modelled by `List.insertionSort` with the non-strict key order, which
  produces the same stable result.
-/

/-- JS string truthiness: `undefined` and `""` are falsy. -/
def jsTruthyStr : Option String → Bool
  | none => false
  | some s => s ≠ ""

/-- JS `a || b` on (possibly absent) strings. -/
def jsOr (a b : Option String) : Option String :=
  if jsTruthyStr a then a else b

/-- JS object-spread overlay for one key: `{...old, ...new}` takes the new
value exactly when the new object has the key. -/
def spreadF (new old : Option String) : Option String :=
  match new with
  | some v => some v
  | none => old

/-- One `av_events` payload (`event_data`).  Fields are the keys the engine
and the CSV importer use; `none` is an absent key.  (`csvRowToEvent` also
stores `name`/`company` and, for update events, a single `new_*` field.) -/
structure EventData where
  name : Option String := none
  company : Option String := none
  geometry_name : Option String := none
  vehicle_types : Option String := none
  platform : Option String := none
  fares : Option String := none
  direct_booking : Option String := none
  supervision : Option String := none
  access : Option String := none
  fleet_partner : Option String := none
  service_model : Option String := none
  company_link : Option String := none
  booking_platform_link : Option String := none
  expected_launch : Option String := none
  notes : Option String := none
  source_url : Option String := none
  new_geometry_name : Option String := none
  new_fares : Option String := none
  new_access : Option String := none
  new_supervision : Option String := none
  new_platform : Option String := none
  new_vehicle_types : Option String := none
  new_fleet_partner : Option String := none
  new_service_model : Option String := none
  new_direct_booking : Option String := none
deriving DecidableEq, Repr

/-- One `av_events` row as consumed by `buildServiceAreasFromEvents`. -/
structure Ev where
  aggregate_id : String
  event_date : Nat
  event_type : String
  event_data : EventData
deriving DecidableEq, Repr

/-- The result of `transformEventData`: the payload with snake_case keys
renamed to camelCase (`direct_booking → directBooking`,
`vehicle_types → vehicleTypes`, `fleet_partner → fleetPartner`,
`geometry_name → geojsonPath`, `service_model → serviceModel`,
`company_link → companyLink`, `booking_platform_link →
bookingPlatformLink`, `expected_launch → expectedLaunch`) and all other
keys passed through.  The `new_*` keys also pass through in the source
but are never read from the transformed object nor from any state, so
they are omitted here. -/
structure TData where
  name : Option String := none
  company : Option String := none
  platform : Option String := none
  fares : Option String := none
  supervision : Option String := none
  access : Option String := none
  notes : Option String := none
  source_url : Option String := none
  directBooking : Option String := none
  vehicleTypes : Option String := none
  fleetPartner : Option String := none
  serviceModel : Option String := none
  companyLink : Option String := none
  bookingPlatformLink : Option String := none
  expectedLaunch : Option String := none
  geojsonPath : Option String := none
deriving DecidableEq, Repr

/-- `transformEventData` from the rebuild script: snake_case to camelCase
renaming of the payload (a fresh object; the input is not modified). -/
def transformEventData (eventData : EventData) : TData :=
  { name := eventData.name
    company := eventData.company
    platform := eventData.platform
    fares := eventData.fares
    supervision := eventData.supervision
    access := eventData.access
    notes := eventData.notes
    source_url := eventData.source_url
    directBooking := eventData.direct_booking
    vehicleTypes := eventData.vehicle_types
    fleetPartner := eventData.fleet_partner
    serviceModel := eventData.service_model
    companyLink := eventData.company_link
    bookingPlatformLink := eventData.booking_platform_link
    expectedLaunch := eventData.expected_launch
    geojsonPath := eventData.geometry_name }

/-- Matches the first regex group `-?\d+\.?\d*` of the source pattern
`/^(-?\d+\.?\d*),(-?\d+\.?\d*)$/`: optional minus, one or more digits,
then optionally a dot followed by zero or more digits. -/
def numCodeTok (cs : List Char) : Bool :=
  let ds := if cs.head? = some '-' then cs.tail else cs
  let d1 := ds.takeWhile Char.isDigit
  let r := ds.dropWhile Char.isDigit
  decide (d1 ≠ []) && (r.isEmpty || (r.head? == some '.' && r.tail.all Char.isDigit))

/-- `parseInlineCoordinates` from the rebuild script.  A falsy (absent or
empty) reference is `null`; otherwise the reference matches
`^(-?\d+\.?\d*),(-?\d+\.?\d*)$` and the two captured numerals are
returned (longitude first), or `null` on no match.  The source applies
`parseFloat` to each captured group; the numerals are kept here as the
captured strings, which determines the same classification and order. -/
def parseInlineCoordinates (geojsonPath : Option String) : Option (String × String) :=
  match geojsonPath with
  | none => none
  | some p =>
    if p = "" then none
    else
      let cs := p.toList
      let a := cs.takeWhile (fun c => c != ',')
      let r := cs.dropWhile (fun c => c != ',')
      if r.head? = some ',' then
        if numCodeTok a && numCodeTok r.tail then some (String.mk a, String.mk r.tail)
        else none
      else none

/-- One materialized service state, as assembled by the engine.  Keys the
engine writes (`id`, `serviceId`, dates, `status`, `isActive`, geometry
fields) are modelled directly; attribute keys arriving by spread from the
payload each get a field.  The `new_*` keys that a creation event's
payload would spread onto the state are never read by the engine and are
omitted. -/
structure SState where
  id : String := ""
  serviceId : String := ""
  effectiveDate : Nat := 0
  endDate : Option Nat := none
  lastUpdated : Nat := 0
  isActive : Bool := false
  status : Option String := none
  name : Option String := none
  company : Option String := none
  platform : Option String := none
  fares : Option String := none
  supervision : Option String := none
  access : Option String := none
  notes : Option String := none
  source_url : Option String := none
  directBooking : Option String := none
  vehicleTypes : Option String := none
  fleetPartner : Option String := none
  serviceModel : Option String := none
  companyLink : Option String := none
  bookingPlatformLink : Option String := none
  expectedLaunch : Option String := none
  geojsonPath : Option String := none
  area_square_miles : Option Nat := none
  coordinates : Option (String × String) := none
deriving DecidableEq, Repr

/-- The geometry lookup map built by `rebuildCache`: resolved geometry
name to computed `area_square_miles`.  Only successfully loaded
geometries are inserted, so a failed resolution is an absent key. -/
abbrev GeoMap := List (String × Nat)

/-- `geometryMap.get(path)?.area_square_miles || null`: the area for a
(possibly absent) geometry reference, `null` when the reference is
absent, not in the map, or the stored number is falsy. -/
def lookupArea (geometryMap : GeoMap) (path : Option String) : Option Nat :=
  match path.bind (fun p => geometryMap.lookup p) with
  | some a => if a = 0 then none else some a
  | none => none

/-- `s.serviceId === serviceId && !s.endDate`: the filter the engine uses
to find a service's open (not yet ended) states. -/
def isOpenFor (serviceId : String) (s : SState) : Bool :=
  s.serviceId == serviceId && s.endDate == none

/-- `allStates.filter(s => s.serviceId === serviceId && !s.endDate).pop()`:
the engine's selector for the current open state — the *last* open state
in emission order. -/
def findLastOpen (serviceId : String) (allStates : List SState) : Option SState :=
  (allStates.filter (isOpenFor serviceId)).getLast?

/-- Apply `f` to the last open state for `serviceId`, in place (the list
counterpart of mutating the object returned by the engine's
filter-then-pop lookup).  When no open state exists the list is
unchanged. -/
def updateLastOpen (serviceId : String) (f : SState → SState) : List SState → List SState
  | [] => []
  | s :: rest =>
    if rest.any (isOpenFor serviceId) then s :: updateLastOpen serviceId f rest
    else if isOpenFor serviceId s then f s :: rest
    else s :: rest

/-- `lastState.endDate = eventDate.toISOString()` through the engine's
last-open lookup: close the last open state for `serviceId`. -/
def closeLastOpen (serviceId : String) (d : Nat) (l : List SState) : List SState :=
  updateLastOpen serviceId (fun s => { s with endDate := some d }) l

/-- Overwrite the last open state for `serviceId` with `v` (the list
counterpart of mutating that state object field by field and then
reading it back). -/
def replaceLastOpen (serviceId : String) (v : SState) (l : List SState) : List SState :=
  updateLastOpen serviceId (fun _ => v) l

/-- `Map.prototype.get` for the `currentServiceStates` map. -/
def lookupMap (m : List (String × SState)) (k : String) : Option SState :=
  match m with
  | [] => none
  | (k', v) :: rest => if k' = k then some v else lookupMap rest k

/-- `Map.prototype.set` for the `currentServiceStates` map. -/
def setMap (m : List (String × SState)) (k : String) (v : SState) : List (String × SState) :=
  match m with
  | [] => [(k, v)]
  | (k', v') :: rest => if k' = k then (k, v) :: rest else (k', v') :: setMap rest k v

/-- The engine's running state: the `currentServiceStates` map and the
`allStates` output array. -/
structure EngineSt where
  currentServiceStates : List (String × SState)
  allStates : List SState
deriving DecidableEq, Repr

/-- Both locals start empty. -/
def initSt : EngineSt := { currentServiceStates := [], allStates := [] }

/-- `` `${serviceId}-${event.event_date}` ``, the synthetic state id. -/
def mkStateId (serviceId : String) (d : Nat) : String :=
  serviceId ++ "-" ++ toString d

/-- The lifecycle gate of the update and geometry branches:
`currentState.isActive || currentState.status === 'testing' ||
currentState.status === 'announced'` (the map default
`{ isActive: false, status: null }` fails it). -/
def lifecycleInWindow : Option SState → Bool
  | none => false
  | some cs => cs.isActive || cs.status == some "testing" || cs.status == some "announced"

/-- The eight single-attribute update kinds that create or mutate a state
(`shouldCreateNewState` in the source). -/
def updFieldKinds : List String :=
  ["fares_policy_changed", "access_policy_changed", "vehicle_types_updated",
   "platform_updated", "supervision_updated", "service_model_updated",
   "fleet_partner_changed", "direct_booking_updated"]

/-- The update-branch dispatch list of the source (`updFieldKinds` plus
`service_updated`, which passes the gate but mutates nothing). -/
def updateOuterKinds : List String :=
  "service_updated" :: updFieldKinds

/-- The field application common to both update paths of the source (the
same-date in-place assignments and the new-state assignments are the
same chain of conditionals): each update kind writes exactly one
attribute from its `new_*` payload key. -/
def applyUpdateField (event : Ev) (s : SState) : SState :=
  if event.event_type = "fares_policy_changed" then
    { s with fares := event.event_data.new_fares }
  else if event.event_type = "access_policy_changed" then
    { s with access := event.event_data.new_access }
  else if event.event_type = "vehicle_types_updated" then
    { s with vehicleTypes := jsOr event.event_data.new_vehicle_types event.event_data.vehicle_types }
  else if event.event_type = "platform_updated" then
    { s with platform := event.event_data.new_platform }
  else if event.event_type = "supervision_updated" then
    { s with supervision := event.event_data.new_supervision }
  else if event.event_type = "service_model_updated" then
    { s with serviceModel := event.event_data.new_service_model }
  else if event.event_type = "fleet_partner_changed" then
    { s with fleetPartner := jsOr event.event_data.new_fleet_partner event.event_data.fleet_partner }
  else if event.event_type = "direct_booking_updated" then
    { s with directBooking := event.event_data.new_direct_booking }
  else s

/-- The state built by the `service_testing` branch: the transformed
payload alone (no merge with prior attributes) plus the branch's fixed
keys. -/
def testingState (geometryMap : GeoMap) (event : Ev) : SState :=
  let serviceId := event.aggregate_id
  let eventDate := event.event_date
  let transformedData := transformEventData event.event_data
  let geojsonPath := jsOr transformedData.geojsonPath event.event_data.geometry_name
  let areaSquareMiles := lookupArea geometryMap geojsonPath
  let coordinates := parseInlineCoordinates geojsonPath
  { id := mkStateId serviceId eventDate
    serviceId := serviceId
    effectiveDate := eventDate
    lastUpdated := eventDate
    endDate := none
    isActive := false
    status := some "testing"
    name := transformedData.name
    company := transformedData.company
    platform := transformedData.platform
    fares := transformedData.fares
    supervision := transformedData.supervision
    access := transformedData.access
    notes := transformedData.notes
    source_url := transformedData.source_url
    directBooking := transformedData.directBooking
    vehicleTypes := transformedData.vehicleTypes
    fleetPartner := transformedData.fleetPartner
    serviceModel := transformedData.serviceModel
    companyLink := transformedData.companyLink
    bookingPlatformLink := transformedData.bookingPlatformLink
    expectedLaunch := transformedData.expectedLaunch
    geojsonPath := geojsonPath
    area_square_miles := areaSquareMiles
    coordinates := coordinates }

def stepTesting (geometryMap : GeoMap) (st : EngineSt) (event : Ev) : EngineSt :=
  let newState := testingState geometryMap event
  { currentServiceStates := setMap st.currentServiceStates event.aggregate_id newState
    allStates := st.allStates ++ [newState] }

/-- The state built by the `service_announced` and `service_created`
branches: the previous map entry (cloned before any closing) overlaid
with the transformed payload and the branch's fixed keys.  The two
branches differ only in `isActive`/`status`. -/
def mergedCreationState (geometryMap : GeoMap) (event : Ev) (prevState : Option SState)
    (active : Bool) (statusVal : String) : SState :=
  let serviceId := event.aggregate_id
  let eventDate := event.event_date
  let transformedData := transformEventData event.event_data
  let geojsonPath := jsOr transformedData.geojsonPath event.event_data.geometry_name
  let areaSquareMiles := lookupArea geometryMap geojsonPath
  let coordinates := parseInlineCoordinates geojsonPath
  { id := mkStateId serviceId eventDate
    serviceId := serviceId
    effectiveDate := eventDate
    lastUpdated := eventDate
    endDate := prevState.bind (fun p => p.endDate)
    isActive := active
    status := some statusVal
    name := spreadF transformedData.name (prevState.bind (fun p => p.name))
    company := spreadF transformedData.company (prevState.bind (fun p => p.company))
    platform := spreadF transformedData.platform (prevState.bind (fun p => p.platform))
    fares := spreadF transformedData.fares (prevState.bind (fun p => p.fares))
    supervision := spreadF transformedData.supervision (prevState.bind (fun p => p.supervision))
    access := spreadF transformedData.access (prevState.bind (fun p => p.access))
    notes := spreadF transformedData.notes (prevState.bind (fun p => p.notes))
    source_url := spreadF transformedData.source_url (prevState.bind (fun p => p.source_url))
    directBooking := spreadF transformedData.directBooking (prevState.bind (fun p => p.directBooking))
    vehicleTypes := spreadF transformedData.vehicleTypes (prevState.bind (fun p => p.vehicleTypes))
    fleetPartner := spreadF transformedData.fleetPartner (prevState.bind (fun p => p.fleetPartner))
    serviceModel := spreadF transformedData.serviceModel (prevState.bind (fun p => p.serviceModel))
    companyLink := spreadF transformedData.companyLink (prevState.bind (fun p => p.companyLink))
    bookingPlatformLink := spreadF transformedData.bookingPlatformLink (prevState.bind (fun p => p.bookingPlatformLink))
    expectedLaunch := spreadF transformedData.expectedLaunch (prevState.bind (fun p => p.expectedLaunch))
    geojsonPath := geojsonPath
    area_square_miles := areaSquareMiles
    coordinates := match coordinates with
      | some c => some c
      | none => prevState.bind (fun p => p.coordinates) }

def stepAnnounced (geometryMap : GeoMap) (st : EngineSt) (event : Ev) : EngineSt :=
  let serviceId := event.aggregate_id
  let newState := mergedCreationState geometryMap event
    (lookupMap st.currentServiceStates serviceId) false "announced"
  { currentServiceStates := setMap st.currentServiceStates serviceId newState
    allStates := closeLastOpen serviceId event.event_date st.allStates ++ [newState] }

def stepCreated (geometryMap : GeoMap) (st : EngineSt) (event : Ev) : EngineSt :=
  let serviceId := event.aggregate_id
  let newState := mergedCreationState geometryMap event
    (lookupMap st.currentServiceStates serviceId) true "active"
  { currentServiceStates := setMap st.currentServiceStates serviceId newState
    allStates := closeLastOpen serviceId event.event_date st.allStates ++ [newState] }

/-- The `service_ended` branch.  In the source, `currentState` and the
popped `lastState` alias the same object whenever the map holds the open
state, so the `{...currentState, isActive: false}` spread (taken after
`lastState.endDate` was assigned) carries the fresh `endDate`; the
embedding rebuilds that shared value from the closed last-open state. -/
def stepEnded (st : EngineSt) (event : Ev) : EngineSt :=
  let serviceId := event.aggregate_id
  let eventDate := event.event_date
  match lookupMap st.currentServiceStates serviceId with
  | some cs =>
    if cs.isActive then
      { currentServiceStates := setMap st.currentServiceStates serviceId
          (match findLastOpen serviceId st.allStates with
           | some lo => { lo with endDate := some eventDate, isActive := false }
           | none => { cs with isActive := false })
        allStates := closeLastOpen serviceId eventDate st.allStates }
    else st
  | none => st

def stepGeometry (geometryMap : GeoMap) (st : EngineSt) (event : Ev) : EngineSt :=
  let serviceId := event.aggregate_id
  let eventDate := event.event_date
  match lookupMap st.currentServiceStates serviceId with
  | some cs =>
    if cs.isActive || cs.status == some "testing" || cs.status == some "announced" then
      let lastOpen := findLastOpen serviceId st.allStates
      let newGeojsonPath :=
        jsOr (jsOr event.event_data.geometry_name event.event_data.new_geometry_name)
          (lastOpen.bind (fun s => s.geojsonPath))
      let areaSquareMiles := lookupArea geometryMap newGeojsonPath
      let coordinates := parseInlineCoordinates newGeojsonPath
      let diffState : SState :=
        { cs with
          id := mkStateId serviceId eventDate
          effectiveDate := eventDate
          lastUpdated := eventDate
          geojsonPath := newGeojsonPath
          area_square_miles := areaSquareMiles
          coordinates := match coordinates with
            | some c => some c
            | none => cs.coordinates }
      let diffResult : EngineSt :=
        { currentServiceStates := setMap st.currentServiceStates serviceId diffState
          allStates := closeLastOpen serviceId eventDate st.allStates ++ [diffState] }
      match lastOpen with
      | some lo =>
        if lo.effectiveDate = eventDate then
          let s' : SState :=
            { lo with
              geojsonPath := newGeojsonPath
              area_square_miles := areaSquareMiles
              lastUpdated := eventDate
              coordinates := coordinates }
          { currentServiceStates := setMap st.currentServiceStates serviceId s'
            allStates := replaceLastOpen serviceId s' st.allStates }
        else diffResult
      | none => diffResult
    else st
  | none => st

def stepUpdate (st : EngineSt) (event : Ev) : EngineSt :=
  let serviceId := event.aggregate_id
  let eventDate := event.event_date
  match lookupMap st.currentServiceStates serviceId with
  | some cs =>
    if cs.isActive || cs.status == some "testing" || cs.status == some "announced" then
      if updFieldKinds.contains event.event_type then
        let lastOpen := findLastOpen serviceId st.allStates
        let diffState : SState :=
          applyUpdateField event
            { cs with
              id := mkStateId serviceId eventDate
              effectiveDate := eventDate
              lastUpdated := eventDate }
        let diffResult : EngineSt :=
          { currentServiceStates := setMap st.currentServiceStates serviceId diffState
            allStates := closeLastOpen serviceId eventDate st.allStates ++ [diffState] }
        match lastOpen with
        | some lo =>
          if lo.effectiveDate = eventDate then
            let s' : SState := { applyUpdateField event lo with lastUpdated := eventDate }
            { currentServiceStates := setMap st.currentServiceStates serviceId s'
              allStates := replaceLastOpen serviceId s' st.allStates }
          else diffResult
        | none => diffResult
      else st
    else st
  | none => st

/-- The body of the per-event loop of `buildServiceAreasFromEvents`
(part_005, the environment-aware rebuild script), one event at a time:
the branch dispatch on `event.event_type`, in source order, over the
per-branch functions above.  Unknown kinds change nothing. -/
def step (geometryMap : GeoMap) (st : EngineSt) (event : Ev) : EngineSt :=
  if event.event_type = "service_testing" then
    stepTesting geometryMap st event
  else if event.event_type = "service_announced" then
    stepAnnounced geometryMap st event
  else if event.event_type = "service_created" then
    stepCreated geometryMap st event
  else if event.event_type = "service_ended" then
    stepEnded st event
  else if event.event_type = "geometry_updated" || event.event_type = "Service Area Change" then
    stepGeometry geometryMap st event
  else if updateOuterKinds.contains event.event_type then
    stepUpdate st event
  else st

/-- `[...events].sort((a, b) => dateA - dateB)`: stable sort of a copy of
the input by event date. -/
def sortedEventsOf (events : List Ev) : List Ev :=
  List.insertionSort (fun a b => a.event_date ≤ b.event_date) events

/-- One state's default-status fix of the final backward-compatibility
pass: a state without a (truthy) `status` gets `'ended'` when closed and
`'active'` when open. -/
def finalizeOne (state : SState) : SState :=
  if jsTruthyStr state.status then state
  else { state with status := some (match state.endDate with
          | some _ => "ended"
          | none => "active") }

def finalizeStatus (l : List SState) : List SState :=
  l.map finalizeOne

/-- `buildServiceAreasFromEvents(events, geometryMap)` from the rebuild
script: stable-sort a copy of the events by date, fold the per-event
state machine, then apply the default-status pass and return
`allStates`. -/
def buildServiceAreasFromEvents (events : List Ev) (geometryMap : GeoMap) : List SState :=
  finalizeStatus (((sortedEventsOf events).foldl (step geometryMap) initSt).allStates)

/-- The diagnostics the projection records.  `buildServiceAreasFromEvents`
returns only the state list: the source contains no warning or error
accumulator, and no branch of the loop records anything for skipped or
degraded events (the only runtime output is a final `console.log` count
line).  The projection's warning output is therefore the constant empty
list. -/
def buildServiceAreasWarnings (_events : List Ev) (_geometryMap : GeoMap) : List String := []

/-- Number of open (no `endDate`) emitted states for a service. -/
def countOpen (serviceId : String) (l : List SState) : Nat :=
  (l.filter (isOpenFor serviceId)).length

/-- Number of emitted states for a service with a given effective date. -/
def countDate (serviceId : String) (d : Nat) (l : List SState) : Nat :=
  (l.filter (fun s => s.serviceId == serviceId && s.effectiveDate == d)).length

/-! ## Bookkeeping lemmas for the open-state lookup -/

theorem findLastOpen_eq_none (sid : String) (l : List SState) :
    findLastOpen sid l = none ↔ ∀ s ∈ l, isOpenFor sid s = false := by
  unfold findLastOpen
  rw [List.getLast?_eq_none_iff, List.filter_eq_nil_iff]
  simp

theorem findLastOpen_decomp (sid : String) (l : List SState) (o : SState)
    (h : findLastOpen sid l = some o) :
    ∃ l1 l2, l = l1 ++ o :: l2 ∧ isOpenFor sid o = true ∧
      (∀ t ∈ l2, isOpenFor sid t = false) ∧
      ∀ f, updateLastOpen sid f l = l1 ++ f o :: l2 := by
  induction l with
  | nil => simp [findLastOpen] at h
  | cons s rest ih =>
    by_cases hr : rest.any (isOpenFor sid)
    · have hne : rest.filter (isOpenFor sid) ≠ [] := by
        rw [Ne, List.filter_eq_nil_iff]
        simp only [List.any_eq_true] at hr
        obtain ⟨x, hx, hpx⟩ := hr
        exact fun hall => by simpa [hpx] using hall x hx
      have hfl : findLastOpen sid (s :: rest) = findLastOpen sid rest := by
        unfold findLastOpen
        rw [List.filter_cons]
        by_cases hs : isOpenFor sid s
        · obtain ⟨y, ys, hy⟩ := List.exists_cons_of_ne_nil hne
          simp only [hs, if_true, hy, List.getLast?_cons_cons]
        · simp [hs]
      rw [hfl] at h
      obtain ⟨l1, l2, hdec, ho, hl2, hupd⟩ := ih h
      refine ⟨s :: l1, l2, by simp [hdec], ho, hl2, fun f => ?_⟩
      unfold updateLastOpen
      simp only [hr, if_pos rfl]
      simp [hupd f]
    · have hfil : rest.filter (isOpenFor sid) = [] := by
        rw [List.filter_eq_nil_iff]
        intro a ha
        by_contra hcon
        exact hr (List.any_eq_true.mpr ⟨a, ha, by simpa using hcon⟩)
      have hall : ∀ t ∈ rest, isOpenFor sid t = false := by
        rw [List.filter_eq_nil_iff] at hfil
        intro t ht
        simpa using hfil t ht
      unfold findLastOpen at h
      rw [List.filter_cons, hfil] at h
      by_cases hs : isOpenFor sid s
      · simp only [hs, if_true, List.getLast?_singleton, Option.some.injEq] at h
        subst h
        refine ⟨[], rest, by simp, hs, hall, fun f => ?_⟩
        unfold updateLastOpen
        simp [hr, hs]
      · simp [hs] at h
  
theorem countOpen_append (sid : String) (l1 l2 : List SState) :
    countOpen sid (l1 ++ l2) = countOpen sid l1 + countOpen sid l2 := by
  simp [countOpen]

theorem countOpen_cons (sid : String) (s : SState) (l : List SState) :
    countOpen sid (s :: l) =
      (if isOpenFor sid s then 1 else 0) + countOpen sid l := by
  by_cases hs : isOpenFor sid s
  · simp [countOpen, List.filter_cons, hs, Nat.add_comm]
  · simp [countOpen, List.filter_cons, hs]

theorem countOpen_eq_zero (sid : String) (l : List SState) :
    countOpen sid l = 0 ↔ ∀ s ∈ l, isOpenFor sid s = false := by
  simp [countOpen, List.length_eq_zero, List.filter_eq_nil_iff]

theorem updateLastOpen_of_no_open (sid : String) (f : SState → SState) (l : List SState)
    (h : ∀ s ∈ l, isOpenFor sid s = false) : updateLastOpen sid f l = l := by
  induction l with
  | nil => rfl
  | cons s rest ih =>
    have hr : rest.any (isOpenFor sid) = false := by
      rw [List.any_eq_false]
      intro x hx
      simp [h x (List.mem_cons_of_mem s hx)]
    unfold updateLastOpen
    rw [hr]
    simp only [Bool.false_eq_true, if_false, h s (List.mem_cons_self s rest), ih
      fun x hx => h x (List.mem_cons_of_mem s hx)]

theorem findLastOpen_append_singleton (sid : String) (l : List SState) (s : SState) :
    findLastOpen sid (l ++ [s]) =
      if isOpenFor sid s then some s else findLastOpen sid l := by
  unfold findLastOpen
  rw [List.filter_append]
  by_cases hs : isOpenFor sid s
  · simp [hs]
  · simp [hs]

theorem isOpenFor_serviceId {sid : String} {s : SState} (h : isOpenFor sid s = true) :
    s.serviceId = sid := by
  simp only [isOpenFor, Bool.and_eq_true, beq_iff_eq] at h
  exact h.1

theorem isOpenFor_endDate {sid : String} {s : SState} (h : isOpenFor sid s = true) :
    s.endDate = none := by
  simp only [isOpenFor, Bool.and_eq_true, beq_iff_eq] at h
  exact h.2

theorem isOpenFor_of_ne {sid : String} {s : SState} (h : s.serviceId ≠ sid) :
    isOpenFor sid s = false := by
  simp [isOpenFor, h]

theorem findLastOpen_of_countOpen_ne_zero {sid : String} {l : List SState}
    (h : countOpen sid l ≠ 0) : ∃ o, findLastOpen sid l = some o := by
  unfold countOpen at h
  unfold findLastOpen
  cases hf : (l.filter (isOpenFor sid)).getLast? with
  | some o => exact ⟨o, rfl⟩
  | none =>
    rw [List.getLast?_eq_none_iff] at hf
    rw [hf] at h
    simp at h

theorem countOpen_zero_of_findLastOpen_none {sid : String} {l : List SState}
    (h : findLastOpen sid l = none) : countOpen sid l = 0 := by
  rw [countOpen_eq_zero]
  exact (findLastOpen_eq_none sid l).mp h

theorem lookupMap_setMap (m : List (String × SState)) (k : String) (v : SState) :
    lookupMap (setMap m k v) k = some v := by
  induction m with
  | nil => simp [setMap, lookupMap]
  | cons p rest ih =>
    obtain ⟨k', v'⟩ := p
    by_cases h : k' = k
    · simp [setMap, lookupMap, h]
    · simp [setMap, lookupMap, h, ih]

theorem lookupMap_setMap_ne (m : List (String × SState)) (k k' : String) (v : SState)
    (h : k' ≠ k) : lookupMap (setMap m k v) k' = lookupMap m k' := by
  induction m with
  | nil => simp [setMap, lookupMap, h, Ne.symm h]
  | cons p rest ih =>
    obtain ⟨k0, v0⟩ := p
    by_cases h0 : k0 = k
    · subst h0
      simp [setMap, lookupMap, h, Ne.symm h]
    · by_cases h1 : k0 = k'
      · simp [setMap, lookupMap, h0, h1, h, Ne.symm h]
      · simp [setMap, lookupMap, h0, h1, ih]

theorem applyUpdateField_skeleton (e : Ev) (s : SState) :
    (applyUpdateField e s).serviceId = s.serviceId ∧
    (applyUpdateField e s).endDate = s.endDate ∧
    (applyUpdateField e s).effectiveDate = s.effectiveDate ∧
    (applyUpdateField e s).isActive = s.isActive ∧
    (applyUpdateField e s).status = s.status ∧
    (applyUpdateField e s).lastUpdated = s.lastUpdated ∧
    (applyUpdateField e s).id = s.id := by
  unfold applyUpdateField
  split_ifs <;> simp

/-! ## Branch dispatch of `step` -/

theorem step_eq_testing (gm : GeoMap) (st : EngineSt) (e : Ev)
    (he : e.event_type = "service_testing") : step gm st e = stepTesting gm st e := by
  unfold step
  simp [he]

theorem step_eq_announced (gm : GeoMap) (st : EngineSt) (e : Ev)
    (he : e.event_type = "service_announced") : step gm st e = stepAnnounced gm st e := by
  unfold step
  simp [he]

theorem step_eq_created (gm : GeoMap) (st : EngineSt) (e : Ev)
    (he : e.event_type = "service_created") : step gm st e = stepCreated gm st e := by
  unfold step
  simp [he]

theorem step_eq_ended (gm : GeoMap) (st : EngineSt) (e : Ev)
    (he : e.event_type = "service_ended") : step gm st e = stepEnded st e := by
  unfold step
  simp [he]

theorem step_eq_geometry (gm : GeoMap) (st : EngineSt) (e : Ev)
    (he : e.event_type = "geometry_updated" ∨ e.event_type = "Service Area Change") :
    step gm st e = stepGeometry gm st e := by
  unfold step
  rcases he with he | he <;> simp [he]

theorem step_eq_update (gm : GeoMap) (st : EngineSt) (e : Ev)
    (he : e.event_type ∈ updateOuterKinds) : step gm st e = stepUpdate st e := by
  unfold step
  simp only [updateOuterKinds, updFieldKinds, List.mem_cons, List.not_mem_nil, or_false] at he
  rcases he with he | he | he | he | he | he | he | he | he <;>
    simp [he, updateOuterKinds, updFieldKinds]

theorem step_eq_same (gm : GeoMap) (st : EngineSt) (e : Ev)
    (he : e.event_type ∉ ("service_testing" :: "service_announced" :: "service_created" ::
      "service_ended" :: "geometry_updated" :: "Service Area Change" :: updateOuterKinds)) :
    step gm st e = st := by
  unfold step
  simp only [List.mem_cons, not_or] at he
  obtain ⟨h1, h2, h3, h4, h5, h6, h7⟩ := he
  have h7' : updateOuterKinds.contains e.event_type = false := by
    simpa using h7
  simp [h1, h2, h3, h4, h5, h6, h7']
  exact fun hmem => absurd hmem h7

/-! ## Invariant bookkeeping -/

/-- Every value stored in the `currentServiceStates` map carries the key
it is stored under as its `serviceId` (true of every `set` the engine
performs). -/
def mapWf (m : List (String × SState)) : Prop :=
  ∀ k s, lookupMap m k = some s → s.serviceId = k

theorem mapWf_set {m : List (String × SState)} {k : String} {v : SState}
    (h : mapWf m) (hv : v.serviceId = k) : mapWf (setMap m k v) := by
  intro k' s' hs'
  by_cases hk : k' = k
  · subst hk
    rw [lookupMap_setMap] at hs'
    cases hs'
    exact hv
  · rw [lookupMap_setMap_ne m k k' v hk] at hs'
    exact h k' s' hs'

theorem isOpenFor_endDate_some (sid : String) (o : SState) (d : Nat) :
    isOpenFor sid { o with endDate := some d } = false := by
  simp [isOpenFor]

theorem countOpen_singleton (sid : String) (v : SState) :
    countOpen sid [v] = if isOpenFor sid v then 1 else 0 := by
  by_cases hv : isOpenFor sid v <;> simp [countOpen, hv]

theorem closeLastOpen_of_zero {sid : String} {l : List SState} (d : Nat)
    (h : countOpen sid l = 0) : closeLastOpen sid d l = l :=
  updateLastOpen_of_no_open sid _ l ((countOpen_eq_zero sid l).mp h)

theorem countOpen_closeLastOpen_le (sid aid : String) (d : Nat) (l : List SState) :
    countOpen sid (closeLastOpen aid d l) ≤ countOpen sid l := by
  by_cases hc : countOpen aid l = 0
  · rw [closeLastOpen_of_zero d hc]
  · obtain ⟨o, ho⟩ := findLastOpen_of_countOpen_ne_zero hc
    obtain ⟨l1, l2, hdec, hoo, -, hupd⟩ := findLastOpen_decomp aid l o ho
    rw [closeLastOpen, hupd, hdec, countOpen_append, countOpen_append,
      countOpen_cons, countOpen_cons, isOpenFor_endDate_some]
    by_cases hoi : isOpenFor sid o <;> simp [hoi]

theorem countOpen_closeLastOpen_other {sid aid : String} (d : Nat) (l : List SState)
    (hne : sid ≠ aid) : countOpen sid (closeLastOpen aid d l) = countOpen sid l := by
  by_cases hc : countOpen aid l = 0
  · rw [closeLastOpen_of_zero d hc]
  · obtain ⟨o, ho⟩ := findLastOpen_of_countOpen_ne_zero hc
    obtain ⟨l1, l2, hdec, hoo, -, hupd⟩ := findLastOpen_decomp aid l o ho
    have hos : isOpenFor sid o = false :=
      isOpenFor_of_ne (by rw [isOpenFor_serviceId hoo]; exact Ne.symm hne)
    rw [closeLastOpen, hupd, hdec, countOpen_append, countOpen_append,
      countOpen_cons, countOpen_cons, isOpenFor_endDate_some, hos]

theorem countOpen_closeLastOpen_self {aid : String} (d : Nat) (l : List SState)
    (hc : countOpen aid l ≠ 0) :
    countOpen aid (closeLastOpen aid d l) = countOpen aid l - 1 := by
  obtain ⟨o, ho⟩ := findLastOpen_of_countOpen_ne_zero hc
  obtain ⟨l1, l2, hdec, hoo, -, hupd⟩ := findLastOpen_decomp aid l o ho
  rw [closeLastOpen, hupd, hdec, countOpen_append, countOpen_append,
    countOpen_cons, countOpen_cons, isOpenFor_endDate_some, hoo]
  simp only [Bool.false_eq_true, if_false, if_true]
  omega

theorem countOpen_replaceLastOpen {aid : String} (sid : String) {l : List SState}
    {o : SState} (v : SState) (ho : findLastOpen aid l = some o)
    (hvs : v.serviceId = o.serviceId) (hve : v.endDate = o.endDate) :
    countOpen sid (replaceLastOpen aid v l) = countOpen sid l := by
  obtain ⟨l1, l2, hdec, hoo, -, hupd⟩ := findLastOpen_decomp aid l o ho
  have : isOpenFor sid v = isOpenFor sid o := by simp [isOpenFor, hvs, hve]
  rw [replaceLastOpen, hupd, hdec, countOpen_append, countOpen_append,
    countOpen_cons, countOpen_cons, this]

theorem stepTesting_shape (gm : GeoMap) (st : EngineSt) (e : Ev) :
    ∃ v : SState, v.serviceId = e.aggregate_id ∧ v.endDate = none ∧
      stepTesting gm st e =
        { currentServiceStates := setMap st.currentServiceStates e.aggregate_id v
          allStates := st.allStates ++ [v] } :=
  ⟨_, rfl, rfl, rfl⟩

theorem mergedCreationState_serviceId (gm : GeoMap) (e : Ev) (p : Option SState)
    (a : Bool) (sv : String) : (mergedCreationState gm e p a sv).serviceId = e.aggregate_id :=
  rfl

theorem stepAnnounced_eq (gm : GeoMap) (st : EngineSt) (e : Ev) :
    stepAnnounced gm st e =
      { currentServiceStates := setMap st.currentServiceStates e.aggregate_id
          (mergedCreationState gm e (lookupMap st.currentServiceStates e.aggregate_id) false "announced")
        allStates := closeLastOpen e.aggregate_id e.event_date st.allStates ++
          [mergedCreationState gm e (lookupMap st.currentServiceStates e.aggregate_id) false "announced"] } :=
  rfl

theorem stepCreated_eq (gm : GeoMap) (st : EngineSt) (e : Ev) :
    stepCreated gm st e =
      { currentServiceStates := setMap st.currentServiceStates e.aggregate_id
          (mergedCreationState gm e (lookupMap st.currentServiceStates e.aggregate_id) true "active")
        allStates := closeLastOpen e.aggregate_id e.event_date st.allStates ++
          [mergedCreationState gm e (lookupMap st.currentServiceStates e.aggregate_id) true "active"] } :=
  rfl

theorem countOpen_close_append_le {aid : String} (sid : String) (d : Nat)
    (l : List SState) (v : SState) (hv : v.serviceId = aid)
    (hinv : ∀ s, countOpen s l ≤ 1) :
    countOpen sid (closeLastOpen aid d l ++ [v]) ≤ 1 := by
  rw [countOpen_append, countOpen_singleton]
  by_cases hsid : sid = aid
  · subst hsid
    by_cases hc : countOpen sid l = 0
    · rw [closeLastOpen_of_zero d hc, hc]
      split <;> omega
    · rw [countOpen_closeLastOpen_self d l hc]
      have := hinv sid
      split <;> omega
  · rw [countOpen_closeLastOpen_other d l hsid]
    have hvf : isOpenFor sid v = false :=
      isOpenFor_of_ne (by rw [hv]; exact fun hh => hsid hh.symm)
    rw [hvf]
    simpa using hinv sid

theorem step_preserves_inv (gm : GeoMap) (st : EngineSt) (e : Ev)
    (hwf : mapWf st.currentServiceStates)
    (hinv : ∀ sid, countOpen sid st.allStates ≤ 1)
    (htest : e.event_type = "service_testing" → countOpen e.aggregate_id st.allStates = 0) :
    mapWf (step gm st e).currentServiceStates ∧
      ∀ sid, countOpen sid (step gm st e).allStates ≤ 1 := by
  by_cases h1 : e.event_type = "service_testing"
  · rw [step_eq_testing gm st e h1]
    obtain ⟨v, hv1, hv2, hsh⟩ := stepTesting_shape gm st e
    rw [hsh]
    refine ⟨mapWf_set hwf hv1, fun sid => ?_⟩
    rw [countOpen_append, countOpen_singleton]
    by_cases hsid : sid = e.aggregate_id
    · subst hsid
      rw [htest h1]
      split <;> omega
    · have hvf : isOpenFor sid v = false :=
        isOpenFor_of_ne (by rw [hv1]; exact fun hh => hsid hh.symm)
      rw [hvf]
      simpa using hinv sid
  · by_cases h2 : e.event_type = "service_announced"
    · rw [step_eq_announced gm st e h2, stepAnnounced_eq]
      exact ⟨mapWf_set hwf (mergedCreationState_serviceId ..),
        fun sid => countOpen_close_append_le sid e.event_date st.allStates _
          (mergedCreationState_serviceId ..) hinv⟩
    · by_cases h3 : e.event_type = "service_created"
      · rw [step_eq_created gm st e h3, stepCreated_eq]
        exact ⟨mapWf_set hwf (mergedCreationState_serviceId ..),
          fun sid => countOpen_close_append_le sid e.event_date st.allStates _
            (mergedCreationState_serviceId ..) hinv⟩
      · by_cases h4 : e.event_type = "service_ended"
        · rw [step_eq_ended gm st e h4]
          cases hcs : lookupMap st.currentServiceStates e.aggregate_id with
          | none => simpa only [stepEnded, hcs] using ⟨hwf, hinv⟩
          | some cs =>
            by_cases hact : cs.isActive = true
            · simp only [stepEnded, hcs, hact, if_true]
              constructor
              · cases hlo : findLastOpen e.aggregate_id st.allStates with
                | some lo =>
                  simp only [hlo]
                  obtain ⟨l1, l2, hdec, hoo, -, -⟩ :=
                    findLastOpen_decomp e.aggregate_id st.allStates lo hlo
                  exact mapWf_set hwf (by simpa using isOpenFor_serviceId hoo)
                | none =>
                  simp only [hlo]
                  exact mapWf_set hwf (by simpa using hwf e.aggregate_id cs hcs)
              · intro sid
                exact le_trans (countOpen_closeLastOpen_le sid e.aggregate_id e.event_date
                  st.allStates) (hinv sid)
            · simp only [Bool.not_eq_true] at hact
              simpa only [stepEnded, hcs, hact, Bool.false_eq_true, if_false] using ⟨hwf, hinv⟩
        · by_cases h5 : e.event_type = "geometry_updated" ∨ e.event_type = "Service Area Change"
          · rw [step_eq_geometry gm st e h5]
            cases hcs : lookupMap st.currentServiceStates e.aggregate_id with
            | none => simpa only [stepGeometry, hcs] using ⟨hwf, hinv⟩
            | some cs =>
              by_cases hgate : (cs.isActive || cs.status == some "testing" ||
                  cs.status == some "announced") = true
              · have hcsid : cs.serviceId = e.aggregate_id := hwf e.aggregate_id cs hcs
                cases hlo : findLastOpen e.aggregate_id st.allStates with
                | some lo =>
                  by_cases hdt : lo.effectiveDate = e.event_date
                  · simp only [stepGeometry, hcs, hgate, if_true, hlo, hdt]
                    obtain ⟨l1, l2, hdec, hoo, -, -⟩ :=
                      findLastOpen_decomp e.aggregate_id st.allStates lo hlo
                    refine ⟨mapWf_set hwf (by simpa using isOpenFor_serviceId hoo), fun sid => ?_⟩
                    rw [countOpen_replaceLastOpen sid _ hlo (by simp) (by simp)]
                    exact hinv sid
                  · simp only [stepGeometry, hcs, hgate, if_true, hlo, hdt, if_false]
                    exact ⟨mapWf_set hwf (by simpa using hcsid),
                      fun sid => countOpen_close_append_le sid e.event_date st.allStates _
                        (by simpa using hcsid) hinv⟩
                | none =>
                  simp only [stepGeometry, hcs, hgate, if_true, hlo]
                  exact ⟨mapWf_set hwf (by simpa using hcsid),
                    fun sid => countOpen_close_append_le sid e.event_date st.allStates _
                      (by simpa using hcsid) hinv⟩
              · simp only [Bool.not_eq_true] at hgate
                simpa only [stepGeometry, hcs, hgate, Bool.false_eq_true, if_false]
                  using ⟨hwf, hinv⟩
          · by_cases h6 : e.event_type ∈ updateOuterKinds
            · rw [step_eq_update gm st e h6]
              cases hcs : lookupMap st.currentServiceStates e.aggregate_id with
              | none => simpa only [stepUpdate, hcs] using ⟨hwf, hinv⟩
              | some cs =>
                by_cases hgate : (cs.isActive || cs.status == some "testing" ||
                    cs.status == some "announced") = true
                · have hcsid : cs.serviceId = e.aggregate_id := hwf e.aggregate_id cs hcs
                  by_cases hfk : updFieldKinds.contains e.event_type = true
                  · have hdsid : (applyUpdateField e { cs with id := mkStateId e.aggregate_id e.event_date, effectiveDate := e.event_date, lastUpdated := e.event_date }).serviceId = e.aggregate_id := by
                      rw [(applyUpdateField_skeleton e _).1]
                      simpa using hcsid
                    cases hlo : findLastOpen e.aggregate_id st.allStates with
                    | some lo =>
                      by_cases hdt : lo.effectiveDate = e.event_date
                      · simp only [stepUpdate, hcs, hgate, if_true, hfk, hlo, hdt]
                        obtain ⟨l1, l2, hdec, hoo, -, -⟩ :=
                          findLastOpen_decomp e.aggregate_id st.allStates lo hlo
                        have hsrv : ({ applyUpdateField e lo with
                            lastUpdated := e.event_date } : SState).serviceId = lo.serviceId := by
                          simpa using (applyUpdateField_skeleton e lo).1
                        have hend : ({ applyUpdateField e lo with
                            lastUpdated := e.event_date } : SState).endDate = lo.endDate := by
                          simpa using (applyUpdateField_skeleton e lo).2.1
                        refine ⟨mapWf_set hwf (by rw [hsrv]; simpa using isOpenFor_serviceId hoo),
                          fun sid => ?_⟩
                        rw [countOpen_replaceLastOpen sid _ hlo hsrv hend]
                        exact hinv sid
                      · simp only [stepUpdate, hcs, hgate, if_true, hfk, hlo, hdt, if_false]
                        exact ⟨mapWf_set hwf hdsid,
                          fun sid => countOpen_close_append_le sid e.event_date st.allStates _
                            hdsid hinv⟩
                    | none =>
                      simp only [stepUpdate, hcs, hgate, if_true, hfk, hlo]
                      exact ⟨mapWf_set hwf hdsid,
                        fun sid => countOpen_close_append_le sid e.event_date st.allStates _
                          hdsid hinv⟩
                  · simp only [Bool.not_eq_true] at hfk
                    simpa only [stepUpdate, hcs, hgate, if_true, hfk, Bool.false_eq_true,
                      if_false] using ⟨hwf, hinv⟩
                · simp only [Bool.not_eq_true] at hgate
                  simpa only [stepUpdate, hcs, hgate, Bool.false_eq_true, if_false]
                    using ⟨hwf, hinv⟩
            · rw [step_eq_same gm st e]
              · exact ⟨hwf, hinv⟩
              · intro hmem
                simp only [List.mem_cons] at hmem
                rcases hmem with h | h | h | h | h | h | h
                · exact h1 h
                · exact h2 h
                · exact h3 h
                · exact h4 h
                · exact h5 (Or.inl h)
                · exact h5 (Or.inr h)
                · exact h6 h

/-- The engine state after folding a (sorted) event list from the empty
initial state. -/
def projSt (gm : GeoMap) (l : List Ev) : EngineSt :=
  l.foldl (step gm) initSt

theorem projSt_append_singleton (gm : GeoMap) (l : List Ev) (e : Ev) :
    projSt gm (l ++ [e]) = step gm (projSt gm l) e := by
  simp [projSt]

theorem fold_inv (gm : GeoMap) (l : List Ev)
    (H : ∀ i : Fin l.length, (l.get i).event_type = "service_testing" →
      countOpen (l.get i).aggregate_id (projSt gm (l.take i)).allStates = 0) :
    mapWf (projSt gm l).currentServiceStates ∧
      ∀ sid, countOpen sid (projSt gm l).allStates ≤ 1 := by
  induction l using List.reverseRecOn with
  | nil =>
    constructor
    · intro k s hks
      simp [projSt, initSt, lookupMap] at hks
    · intro sid
      simp [projSt, initSt, countOpen]
  | append_singleton l' e ih =>
    rw [projSt_append_singleton]
    have hlen : l'.length < (l' ++ [e]).length := by simp
    have hget : (l' ++ [e]).get ⟨l'.length, hlen⟩ = e := by
      simp
    have htake : (l' ++ [e]).take l'.length = l' := List.take_left l' [e]
    obtain ⟨hwf, hinv⟩ := ih (fun i hi => by
      have hlt : (i : Nat) < l'.length := i.isLt
      have hlt' : (i : Nat) < (l' ++ [e]).length := by
        simp
        omega
      have hg : (l' ++ [e]).get ⟨i, hlt'⟩ = l'.get i := by
        simp [List.get_eq_getElem, List.getElem_append_left hlt]
      have ht : (l' ++ [e]).take i = l'.take i := by
        rw [List.take_append_of_le_length (le_of_lt hlt)]
      have := H ⟨i, hlt'⟩ (by rw [hg]; exact hi)
      rw [hg, ht] at this
      exact this)
    exact step_preserves_inv gm (projSt gm l') e hwf hinv (fun he => by
      have := H ⟨l'.length, hlen⟩ (by rw [hget]; exact he)
      rw [hget, htake] at this
      exact this)

theorem countOpen_finalizeStatus (sid : String) (l : List SState) :
    countOpen sid (finalizeStatus l) = countOpen sid l := by
  induction l with
  | nil => rfl
  | cons s t ih =>
    have hopen : ∀ u : SState, isOpenFor sid (finalizeOne u) = isOpenFor sid u := by
      intro u
      unfold finalizeOne
      by_cases hu : jsTruthyStr u.status <;> simp [hu, isOpenFor]
    show countOpen sid (finalizeOne s :: finalizeStatus t) = _
    rw [countOpen_cons, countOpen_cons, ih, hopen s]

/-! ## Concrete events used by witnesses and counterexamples -/

/-- The spec's literal example scenario (§8), with dates abstracted to
increasing timestamps. -/
def exTesting : Ev :=
  { aggregate_id := "acme-springfield"
    event_date := 100
    event_type := "service_testing"
    event_data := { platform := some "TestApp" } }

def exCreated : Ev :=
  { aggregate_id := "acme-springfield"
    event_date := 300
    event_type := "service_created"
    event_data := { vehicle_types := some "ModelX", fares := some "No", access := some "Waitlist" } }

def exAccess : Ev :=
  { aggregate_id := "acme-springfield"
    event_date := 300
    event_type := "access_policy_changed"
    event_data := { new_access := some "Public" } }

def exFares : Ev :=
  { aggregate_id := "acme-springfield"
    event_date := 600
    event_type := "fares_policy_changed"
    event_data := { new_fares := some "Yes" } }

def exEnded : Ev :=
  { aggregate_id := "acme-springfield"
    event_date := 900
    event_type := "service_ended"
    event_data := {} }

def exampleEvents : List Ev := [exTesting, exCreated, exAccess, exFares, exEnded]

/-- Two `service_testing` events for one service. -/
def twoTestingEvents : List Ev :=
  [{ aggregate_id := "acme-downtown"
     event_date := 3
     event_type := "service_testing"
     event_data := {} },
   { aggregate_id := "acme-downtown"
     event_date := 5
     event_type := "service_testing"
     event_data := {} }]

/-! ## C1: the single-open-state invariant -/

/-- C1, counterexample.  The claim "for every input event list and every
service identifier, at most one emitted ServiceState with that serviceId
lacks an endDate" is false for `buildServiceAreasFromEvents`: the
`service_testing` branch pushes a fresh open state without closing a
previous open state of the same service, so two `service_testing` events
for one service leave two open states (here, exactly 2). -/
theorem C1_single_open_counterexample :
    ¬ (∀ (events : List Ev) (gm : GeoMap) (sid : String),
        countOpen sid (buildServiceAreasFromEvents events gm) ≤ 1) := by
  intro h
  exact absurd (h twoTestingEvents [] "acme-downtown") (by decide)

/-- C1, amended.  The single-open-state invariant holds at every point
during and after the projection, provided no `service_testing` event is
processed for a service that already has an open emitted state (the only
branch that pushes a state without first closing the open one): for
every prefix of the date-sorted event list, and for the final output of
`buildServiceAreasFromEvents`, every service has at most one emitted
state without an `endDate`. -/
theorem C1_single_open_amended (events : List Ev) (gm : GeoMap)
    (H : ∀ i : Fin (sortedEventsOf events).length,
      ((sortedEventsOf events).get i).event_type = "service_testing" →
      countOpen ((sortedEventsOf events).get i).aggregate_id
        (projSt gm ((sortedEventsOf events).take i)).allStates = 0) :
    (∀ n sid, countOpen sid (projSt gm ((sortedEventsOf events).take n)).allStates ≤ 1) ∧
    (∀ sid, countOpen sid (buildServiceAreasFromEvents events gm) ≤ 1) := by
  have main : ∀ n, (∀ i : Fin ((sortedEventsOf events).take n).length,
      (((sortedEventsOf events).take n).get i).event_type = "service_testing" →
      countOpen (((sortedEventsOf events).take n).get i).aggregate_id
        (projSt gm (((sortedEventsOf events).take n).take i)).allStates = 0) := by
    intro n i hi
    have hlt : (i : Nat) < (sortedEventsOf events).length :=
      lt_of_lt_of_le i.isLt (by simp)
    have hin : (i : Nat) ≤ n := by
      have := i.isLt
      simp only [List.length_take] at this
      omega
    have hg : ((sortedEventsOf events).take n).get i =
        (sortedEventsOf events).get ⟨i, hlt⟩ := by
      simp [List.get_eq_getElem, List.getElem_take]
    have ht : ((sortedEventsOf events).take n).take i = (sortedEventsOf events).take i := by
      rw [List.take_take, min_eq_left hin]
    rw [hg, ht]
    exact H ⟨i, hlt⟩ (by rw [← hg]; exact hi)
  refine ⟨fun n sid => (fold_inv gm _ (main n)).2 sid, fun sid => ?_⟩
  unfold buildServiceAreasFromEvents
  rw [countOpen_finalizeStatus]
  exact (fold_inv gm _ H).2 sid

/-- C1 amended, witness: the hypothesis and conclusion hold on the spec's
example scenario. -/
theorem C1_single_open_amended_witness :
    countOpen "acme-springfield" (buildServiceAreasFromEvents exampleEvents []) ≤ 1 :=
  (C1_single_open_amended exampleEvents [] (by decide)).2 "acme-springfield"

/-! ## C3: the engine selects the last open state, never the first -/

/-- C3.  The engine's open-state selector (`findLastOpen`, the embedding
of `allStates.filter(s => s.serviceId === sid && !s.endDate).pop()`,
used by every branch that closes, clones or updates the current open
state) returns an open state of the service after which no further open
state of that service occurs in emission order — the most recent (last)
open state; and whenever the service has two or more open states, some
open state occurs strictly before the selected one, so the selection is
never the first match. -/
theorem C3_last_open_selection (sid : String) (l : List SState) (s : SState)
    (h : findLastOpen sid l = some s) :
    isOpenFor sid s = true ∧
    ∃ l1 l2, l = l1 ++ s :: l2 ∧ (∀ t ∈ l2, isOpenFor sid t = false) ∧
      (2 ≤ countOpen sid l → ∃ t ∈ l1, isOpenFor sid t = true) := by
  obtain ⟨l1, l2, hdec, ho, hl2, -⟩ := findLastOpen_decomp sid l s h
  refine ⟨ho, l1, l2, hdec, hl2, fun h2 => ?_⟩
  have hz : countOpen sid l2 = 0 := (countOpen_eq_zero sid l2).mpr hl2
  rw [hdec, countOpen_append, countOpen_cons, ho, hz] at h2
  simp only [if_true] at h2
  have h1 : 1 ≤ countOpen sid l1 := by omega
  have hne : countOpen sid l1 ≠ 0 := by omega
  rw [Ne, countOpen_eq_zero] at hne
  push_neg at hne
  obtain ⟨t, ht, hto⟩ := hne
  exact ⟨t, ht, by simpa using hto⟩

/-- Two open states of one service, for the C3 witness. -/
def wsOpenA : SState :=
  { id := "a-1", serviceId := "a", effectiveDate := 1 }

def wsOpenB : SState :=
  { id := "a-2", serviceId := "a", effectiveDate := 2 }

/-- C3, witness: on a list with two open states for service `a`, the
selector picks the second (isOpenFor holds, the decomposition places it
last, and an earlier open state exists). -/
theorem C3_last_open_selection_witness :
    isOpenFor "a" wsOpenB = true ∧
    ∃ l1 l2, [wsOpenA, wsOpenB] = l1 ++ wsOpenB :: l2 ∧
      (∀ t ∈ l2, isOpenFor "a" t = false) ∧
      (2 ≤ countOpen "a" [wsOpenA, wsOpenB] → ∃ t ∈ l1, isOpenFor "a" t = true) :=
  C3_last_open_selection "a" [wsOpenA, wsOpenB] wsOpenB (by decide)

/-! ## C5: service_ended semantics -/

/-- The `service_ended` gate of the source: `currentState.isActive`, with
the map default `{ isActive: false }` failing it. -/
def isActiveLifecycle : Option SState → Bool
  | none => false
  | some cs => cs.isActive

theorem length_updateLastOpen (sid : String) (f : SState → SState) (l : List SState) :
    (updateLastOpen sid f l).length = l.length := by
  induction l with
  | nil => rfl
  | cons s rest ih =>
    unfold updateLastOpen
    by_cases hr : rest.any (isOpenFor sid)
    · simp [hr, ih]
    · by_cases hs : isOpenFor sid s <;> simp [hr, hs]

/-- C5.  A `service_ended` event takes effect only when the service's
lifecycle is active: when the gate fails the engine state (and hence the
emitted state list) is left entirely unchanged; when the gate passes and
an open state exists, that (last) open state gets `endDate` equal to the
event date, no new state is emitted (the list length is unchanged, all
other states are untouched), and the service is marked inactive in the
map. -/
theorem C5_service_ended (gm : GeoMap) (st : EngineSt) (e : Ev)
    (he : e.event_type = "service_ended") :
    (isActiveLifecycle (lookupMap st.currentServiceStates e.aggregate_id) = false →
      step gm st e = st) ∧
    (∀ cs, lookupMap st.currentServiceStates e.aggregate_id = some cs → cs.isActive = true →
      ∀ o, findLastOpen e.aggregate_id st.allStates = some o →
      ∃ l1 l2, st.allStates = l1 ++ o :: l2 ∧
        (step gm st e).allStates = l1 ++ ({ o with endDate := some e.event_date }) :: l2 ∧
        (step gm st e).allStates.length = st.allStates.length ∧
        (lookupMap (step gm st e).currentServiceStates e.aggregate_id).map
          (fun s => s.isActive) = some false) := by
  rw [step_eq_ended gm st e he]
  constructor
  · intro hgate
    cases hcs : lookupMap st.currentServiceStates e.aggregate_id with
    | none => simp [stepEnded, hcs]
    | some cs =>
      rw [hcs] at hgate
      have : cs.isActive = false := hgate
      simp [stepEnded, hcs, this]
  · intro cs hcs hact o hlo
    obtain ⟨l1, l2, hdec, hoo, hl2, hupd⟩ := findLastOpen_decomp e.aggregate_id st.allStates o hlo
    refine ⟨l1, l2, hdec, ?_, ?_, ?_⟩
    · simp only [stepEnded, hcs, hact, if_true]
      exact hupd _
    · simp only [stepEnded, hcs, hact, if_true]
      rw [closeLastOpen, length_updateLastOpen]
    · simp only [stepEnded, hcs, hact, if_true, hlo]
      rw [lookupMap_setMap]
      rfl

/-- An already-active service with one open state, for the C5 witness. -/
def wsActive : SState :=
  { id := "a-1", serviceId := "a", effectiveDate := 1, isActive := true,
    status := some "active" }

def wEndedSt : EngineSt :=
  { currentServiceStates := [("a", wsActive)], allStates := [wsActive] }

def wEndedEv : Ev :=
  { aggregate_id := "a", event_date := 4, event_type := "service_ended", event_data := {} }

/-- C5, witness: on a one-state active service, `service_ended` closes
the open state with the event date, emits nothing new, and marks the
service inactive. -/
theorem C5_service_ended_witness :
    ∃ l1 l2, wEndedSt.allStates = l1 ++ wsActive :: l2 ∧
      (step [] wEndedSt wEndedEv).allStates =
        l1 ++ ({ wsActive with endDate := some wEndedEv.event_date }) :: l2 ∧
      (step [] wEndedSt wEndedEv).allStates.length = wEndedSt.allStates.length ∧
      (lookupMap (step [] wEndedSt wEndedEv).currentServiceStates wEndedEv.aggregate_id).map
        (fun s => s.isActive) = some false :=
  (C5_service_ended [] wEndedSt wEndedEv rfl).2 wsActive (by decide) (by decide)
    wsActive (by decide)

/-! ## C6: the lifecycle gate on single-attribute updates -/

/-- C6, counterexample.  A single-attribute update with no prior
lifecycle (outside the {testing, announced, active} window) produces no
state change — but, against the claim, no warning is recorded either:
`buildServiceAreasFromEvents` has no diagnostics accumulator, so its
warning output is empty at this (and every) input. -/
theorem C6_update_gate_counterexample :
    buildServiceAreasFromEvents [exFares] [] = [] ∧
    buildServiceAreasWarnings [exFares] [] = [] :=
  ⟨rfl, rfl⟩

/-- C6, amended.  Single-attribute update events (`service_updated` and
the eight field kinds) and the geometry-update kinds mutate state only
when the service's lifecycle gate (`isActive`, or status testing or
announced — i.e. lifecycle in {testing, announced, active}) passes:
outside that window the engine state is returned entirely unchanged, and
the event is skipped silently — the projection records no warning. -/
theorem C6_update_gate_amended (gm : GeoMap) (st : EngineSt) (e : Ev)
    (he : e.event_type ∈ updateOuterKinds ∨ e.event_type = "geometry_updated" ∨
      e.event_type = "Service Area Change")
    (hw : lifecycleInWindow (lookupMap st.currentServiceStates e.aggregate_id) = false) :
    step gm st e = st ∧ buildServiceAreasWarnings [e] gm = [] := by
  refine ⟨?_, rfl⟩
  rcases he with hmem | hgeo
  · rw [step_eq_update gm st e hmem]
    cases hcs : lookupMap st.currentServiceStates e.aggregate_id with
    | none => simp [stepUpdate, hcs]
    | some cs =>
      rw [hcs] at hw
      have hw' : (cs.isActive || cs.status == some "testing" ||
          cs.status == some "announced") = false := hw
      simp [stepUpdate, hcs, hw']
  · rw [step_eq_geometry gm st e hgeo]
    cases hcs : lookupMap st.currentServiceStates e.aggregate_id with
    | none => simp [stepGeometry, hcs]
    | some cs =>
      rw [hcs] at hw
      have hw' : (cs.isActive || cs.status == some "testing" ||
          cs.status == some "announced") = false := hw
      simp [stepGeometry, hcs, hw']

/-- C6 amended, witness: a fares update with no prior lifecycle leaves
the initial engine state unchanged and records nothing. -/
theorem C6_update_gate_amended_witness :
    step [] initSt exFares = initSt ∧ buildServiceAreasWarnings [exFares] [] = [] :=
  C6_update_gate_amended [] initSt exFares (Or.inl (by decide)) (by decide)

/-! ## C8: geometry resolution failure degrades, never blocks emission -/

theorem stepTesting_shape_area (gm : GeoMap) (st : EngineSt) (e : Ev) :
    ∃ v : SState, v.serviceId = e.aggregate_id ∧
      v.area_square_miles =
        lookupArea gm (jsOr (transformEventData e.event_data).geojsonPath
          e.event_data.geometry_name) ∧
      stepTesting gm st e =
        { currentServiceStates := setMap st.currentServiceStates e.aggregate_id v
          allStates := st.allStates ++ [v] } :=
  ⟨_, rfl, rfl, rfl⟩

theorem mergedCreationState_area (gm : GeoMap) (e : Ev) (p : Option SState)
    (a : Bool) (sv : String) :
    (mergedCreationState gm e p a sv).area_square_miles =
      lookupArea gm (jsOr (transformEventData e.event_data).geojsonPath
        e.event_data.geometry_name) :=
  rfl

/-- A `service_testing` event with a geometry reference that no entry of
the geometry map resolves. -/
def cexGeoTestingEv : Ev :=
  { aggregate_id := "geo-svc", event_date := 1, event_type := "service_testing",
    event_data := { geometry_name := some "missing-file" } }

def cexGeoFaresEv : Ev :=
  { aggregate_id := "geo-svc", event_date := 2, event_type := "fares_policy_changed",
    event_data := { new_fares := some "Yes" } }

/-- C8, counterexample.  A `service_testing` event whose geometry
reference resolves to nothing still emits its state (`resolvedArea`
null), and the projection continues — a later update event is still
applied, producing a second state — but, against the claim, no warning
is recorded: the projection's warning output is empty at this input. -/
theorem C8_geometry_degradation_counterexample :
    ((buildServiceAreasFromEvents [cexGeoTestingEv, cexGeoFaresEv] []).map
      (fun s => (s.geojsonPath, s.area_square_miles))) =
      [(some "missing-file", none), (some "missing-file", none)] ∧
    buildServiceAreasWarnings [cexGeoTestingEv, cexGeoFaresEv] [] = [] :=
  ⟨rfl, rfl⟩

/-! The amended C8 theorem itself appears after the open-state
decomposition machinery it relies on (it also covers the geometry-update
branch, whose same-date path updates the last open state in place). -/

/-! ## C9: inline-coordinate classification -/

/-- Regex-group semantics written from the spec's words: `-?\d+(\.\d+)?`
— optional minus, one or more digits, then optionally a dot followed by
*one or more* digits (the spec's pattern, unlike the source's, does not
accept a trailing dot). -/
def numSpecTok (cs : List Char) : Bool :=
  let ds := if cs.head? = some '-' then cs.tail else cs
  let d1 := ds.takeWhile Char.isDigit
  let r := ds.dropWhile Char.isDigit
  decide (d1 ≠ []) &&
    (r.isEmpty || (r.head? == some '.' && (decide (r.tail ≠ []) && r.tail.all Char.isDigit)))

/-- The spec's claimed classification pattern
`^-?\d+(\.\d+)?,-?\d+(\.\d+)?$`, written from the spec's words: the
string is two spec tokens separated by a single comma. -/
def matchesSpecPattern (p : String) : Bool :=
  match p.toList.splitOn ',' with
  | [a, b] => numSpecTok a && numSpecTok b
  | _ => false

theorem numCodeTok_no_comma {a : List Char} (h : numCodeTok a = true) : ',' ∉ a := by
  have helper : ∀ ds : List Char,
      (decide (ds.takeWhile Char.isDigit ≠ []) &&
        ((ds.dropWhile Char.isDigit).isEmpty ||
          ((ds.dropWhile Char.isDigit).head? == some '.' &&
            (ds.dropWhile Char.isDigit).tail.all Char.isDigit))) = true → ',' ∉ ds := by
    intro ds hds hm
    rw [Bool.and_eq_true] at hds
    obtain ⟨-, h2⟩ := hds
    have hsplit : ds.takeWhile Char.isDigit ++ ds.dropWhile Char.isDigit = ds :=
      List.takeWhile_append_dropWhile Char.isDigit ds
    rw [← hsplit] at hm
    rcases List.mem_append.mp hm with hm | hm
    · have := List.mem_takeWhile_imp hm
      simp at this
    · cases hr : ds.dropWhile Char.isDigit with
      | nil => rw [hr] at hm; simp at hm
      | cons c r2 =>
        rw [hr] at hm h2
        simp only [List.isEmpty_cons, List.head?_cons, List.tail_cons, Bool.false_or,
          Bool.and_eq_true, beq_iff_eq, Option.some.injEq] at h2
        obtain ⟨hc, hall⟩ := h2
        subst hc
        rcases List.mem_cons.mp hm with hm | hm
        · exact absurd hm (by decide)
        · have hd := List.all_eq_true.mp hall ',' hm
          simp at hd
  simp only [numCodeTok] at h
  intro hm
  by_cases hh : a.head? = some '-'
  · rw [if_pos hh] at h
    have hds := helper a.tail h
    cases a with
    | nil => simp at hh
    | cons c t =>
      simp only [List.head?_cons, Option.some.injEq] at hh
      subst hh
      rcases List.mem_cons.mp hm with hm | hm
      · exact absurd hm (by decide)
      · exact hds hm
  · rw [if_neg hh] at h
    exact helper a h hm

theorem split_at_comma (a b : List Char) (ha : ',' ∉ a) :
    (a ++ ',' :: b).takeWhile (fun c => c != ',') = a ∧
    (a ++ ',' :: b).dropWhile (fun c => c != ',') = ',' :: b := by
  induction a with
  | nil =>
    constructor
    · simp [List.takeWhile_cons]
    · simp [List.dropWhile_cons]
  | cons c t ih =>
    have hc : (c != ',') = true := by
      simp only [bne_iff_ne, ne_eq]
      exact fun hcc => ha (hcc ▸ List.mem_cons_self c t)
    obtain ⟨h1, h2⟩ := ih (fun hm => ha (List.mem_cons_of_mem c hm))
    constructor
    · simp [List.takeWhile_cons, hc, h1]
    · simp [List.dropWhile_cons, hc, h2]

/-- C9, amended.  The engine classifies a geometry reference as an
inline point exactly when it matches the source's pattern
`^-?\d+\.?\d*,-?\d+\.?\d*$` — two `numCodeTok` numerals separated by
one comma (this pattern, unlike the one the claim states, accepts a
numeral with a trailing dot such as `5.`); and the classification is
longitude-first: the returned pair is (text before the comma, text after
it), in that order. -/
theorem C9_inline_pattern_amended (p : String) :
    ((parseInlineCoordinates (some p)).isSome ↔
      ∃ a b, p.toList = a ++ ',' :: b ∧ numCodeTok a = true ∧ numCodeTok b = true) ∧
    (∀ x y : String, parseInlineCoordinates (some p) = some (x, y) →
      p.toList = x.toList ++ ',' :: y.toList) := by
  by_cases hp : p = ""
  · subst hp
    have hval : parseInlineCoordinates (some "") = none := rfl
    rw [hval]
    constructor
    · simp only [Option.isSome_none, Bool.false_eq_true, false_iff]
      rintro ⟨a, b, heq, -, -⟩
      cases a <;> simp at heq
    · intro x y hxy
      simp at hxy
  · have hsplit : p.toList.takeWhile (fun c => c != ',') ++
        p.toList.dropWhile (fun c => c != ',') = p.toList :=
      List.takeWhile_append_dropWhile _ _
    by_cases hh : (p.toList.dropWhile (fun c => c != ',')).head? = some ','
    · obtain ⟨r, hr⟩ : ∃ r, p.toList.dropWhile (fun c => c != ',') = ',' :: r := by
        cases hd : p.toList.dropWhile (fun c => c != ',') with
        | nil => rw [hd] at hh; simp at hh
        | cons c rest =>
          rw [hd] at hh
          simp only [List.head?_cons, Option.some.injEq] at hh
          exact ⟨rest, by rw [hh]⟩
      have hdecomp : p.toList = p.toList.takeWhile (fun c => c != ',') ++ ',' :: r := by
        conv_lhs => rw [← hsplit]
        rw [hr]
      by_cases hnum : (numCodeTok (p.toList.takeWhile (fun c => c != ',')) &&
          numCodeTok (p.toList.dropWhile (fun c => c != ',')).tail) = true
      · have hval : parseInlineCoordinates (some p) =
            some (String.mk (p.toList.takeWhile (fun c => c != ',')),
              String.mk (p.toList.dropWhile (fun c => c != ',')).tail) := by
          simp only [parseInlineCoordinates, if_neg hp, if_pos hh, if_pos hnum]
        rw [Bool.and_eq_true] at hnum
        have hnum2 : numCodeTok r = true := by
          have := hnum.2
          rw [hr] at this
          simpa using this
        constructor
        · rw [hval]
          simp only [Option.isSome_some, true_iff]
          exact ⟨p.toList.takeWhile (fun c => c != ','), r, hdecomp, hnum.1, hnum2⟩
        · intro x y hxy
          rw [hval] at hxy
          have hA := Option.some.inj hxy
          rw [Prod.mk.injEq] at hA
          obtain ⟨hx, hy⟩ := hA
          rw [← hx, ← hy]
          have hxl : (String.mk (p.toList.takeWhile (fun c => c != ','))).toList =
              p.toList.takeWhile (fun c => c != ',') := rfl
          have hyl : (String.mk (p.toList.dropWhile (fun c => c != ',')).tail).toList =
              (p.toList.dropWhile (fun c => c != ',')).tail := rfl
          rw [hxl, hyl, hr]
          simpa using hdecomp
      · have hval : parseInlineCoordinates (some p) = none := by
          simp only [parseInlineCoordinates, if_neg hp, if_pos hh, if_neg hnum]
        rw [hval]
        constructor
        · simp only [Option.isSome_none, Bool.false_eq_true, false_iff]
          rintro ⟨a, b, heq, hna, hnb⟩
          obtain ⟨h1, h2⟩ := split_at_comma a b (numCodeTok_no_comma hna)
          rw [heq, h1, h2] at hnum
          simp only [List.tail_cons] at hnum
          exact hnum (by rw [hna, hnb]; rfl)
        · intro x y hxy
          simp at hxy
    · have hval : parseInlineCoordinates (some p) = none := by
        simp only [parseInlineCoordinates, if_neg hp, if_neg hh]
      rw [hval]
      constructor
      · simp only [Option.isSome_none, Bool.false_eq_true, false_iff]
        rintro ⟨a, b, heq, hna, -⟩
        obtain ⟨-, h2⟩ := split_at_comma a b (numCodeTok_no_comma hna)
        rw [heq, h2] at hh
        simp at hh
      · intro x y hxy
        simp at hxy

/-- C9, counterexample.  The reference `"5.,3"` is classified as an
inline point by the engine (`parseInlineCoordinates` accepts a numeral
with a trailing dot, per its pattern `-?\d+\.?\d*`), but it does not
match the claim's pattern `^-?\d+(\.\d+)?,-?\d+(\.\d+)?$`, which
requires a digit after the dot — so the claimed "exactly when" fails. -/
theorem C9_inline_pattern_counterexample :
    parseInlineCoordinates (some "5.,3") = some ("5.", "3") ∧
    matchesSpecPattern "5.,3" = false :=
  ⟨by decide, by decide⟩

/-- C9 amended, witness: `"-122.4,37.7"` is classified as a point and
decomposes longitude-first around the comma. -/
theorem C9_inline_pattern_amended_witness :
    (∃ a b, ("-122.4,37.7" : String).toList = a ++ ',' :: b ∧
      numCodeTok a = true ∧ numCodeTok b = true) ∧
    ("-122.4,37.7" : String).toList =
      ("-122.4" : String).toList ++ ',' :: ("37.7" : String).toList :=
  ⟨(C9_inline_pattern_amended "-122.4,37.7").1.mp (by decide),
   (C9_inline_pattern_amended "-122.4,37.7").2 "-122.4" "37.7" (by decide)⟩

/-! ## C4: service_created inheritance -/

def cexInheritTesting : Ev :=
  { aggregate_id := "svc-x", event_date := 1, event_type := "service_testing",
    event_data := { geometry_name := some "g" } }

def cexInheritCreated : Ev :=
  { aggregate_id := "svc-x", event_date := 2, event_type := "service_created",
    event_data := { fares := some "No" } }

/-- C4, counterexample.  A `service_created` event whose payload carries
no geometry reference does *not* retain the service's prior geometry:
after `service_testing` with geometry `g` (area 5), the created state's
`geojsonPath` is absent and its area is null — the branch always
overwrites both from its own (here empty) payload, against "every field
absent from the payload retains its prior value". -/
theorem C4_created_counterexample :
    ((buildServiceAreasFromEvents [cexInheritTesting, cexInheritCreated] [("g", 5)]).map
      (fun s => s.geojsonPath)) = [some "g", none] ∧
    ((buildServiceAreasFromEvents [cexInheritTesting, cexInheritCreated] [("g", 5)]).map
      (fun s => s.area_square_miles)) = [some 5, none] ∧
    (some "g" : Option String) ≠ none :=
  ⟨rfl, rfl, by decide⟩

/-- C4, amended.  Processing a `service_created` event (from any prior
lifecycle state) marks the service active (`isActive` true, status
`active`) and emits one state that inherits the previously known
attributes with the event's payload overlaid — for every ordinary
attribute, a field present in the payload takes the payload's value and
a field absent from it retains the prior value — *except* the geometry
fields: `geojsonPath` and `area_square_miles` are always recomputed from
the event's own geometry payload (absent/null when the payload carries
no geometry reference), the parsed inline `coordinates` overlay only on
a successful parse, and a leftover `endDate` of the map's previous entry
is inherited verbatim. -/
theorem C4_created_inherit_amended (gm : GeoMap) (st : EngineSt) (e : Ev)
    (he : e.event_type = "service_created") :
    ∃ v,
      (step gm st e).allStates =
        closeLastOpen e.aggregate_id e.event_date st.allStates ++ [v] ∧
      lookupMap (step gm st e).currentServiceStates e.aggregate_id = some v ∧
      v.serviceId = e.aggregate_id ∧
      v.isActive = true ∧
      v.status = some "active" ∧
      v.effectiveDate = e.event_date ∧
      v.name = spreadF (transformEventData e.event_data).name
        ((lookupMap st.currentServiceStates e.aggregate_id).bind (fun p => p.name)) ∧
      v.company = spreadF (transformEventData e.event_data).company
        ((lookupMap st.currentServiceStates e.aggregate_id).bind (fun p => p.company)) ∧
      v.platform = spreadF (transformEventData e.event_data).platform
        ((lookupMap st.currentServiceStates e.aggregate_id).bind (fun p => p.platform)) ∧
      v.fares = spreadF (transformEventData e.event_data).fares
        ((lookupMap st.currentServiceStates e.aggregate_id).bind (fun p => p.fares)) ∧
      v.supervision = spreadF (transformEventData e.event_data).supervision
        ((lookupMap st.currentServiceStates e.aggregate_id).bind (fun p => p.supervision)) ∧
      v.access = spreadF (transformEventData e.event_data).access
        ((lookupMap st.currentServiceStates e.aggregate_id).bind (fun p => p.access)) ∧
      v.notes = spreadF (transformEventData e.event_data).notes
        ((lookupMap st.currentServiceStates e.aggregate_id).bind (fun p => p.notes)) ∧
      v.source_url = spreadF (transformEventData e.event_data).source_url
        ((lookupMap st.currentServiceStates e.aggregate_id).bind (fun p => p.source_url)) ∧
      v.directBooking = spreadF (transformEventData e.event_data).directBooking
        ((lookupMap st.currentServiceStates e.aggregate_id).bind (fun p => p.directBooking)) ∧
      v.vehicleTypes = spreadF (transformEventData e.event_data).vehicleTypes
        ((lookupMap st.currentServiceStates e.aggregate_id).bind (fun p => p.vehicleTypes)) ∧
      v.fleetPartner = spreadF (transformEventData e.event_data).fleetPartner
        ((lookupMap st.currentServiceStates e.aggregate_id).bind (fun p => p.fleetPartner)) ∧
      v.serviceModel = spreadF (transformEventData e.event_data).serviceModel
        ((lookupMap st.currentServiceStates e.aggregate_id).bind (fun p => p.serviceModel)) ∧
      v.companyLink = spreadF (transformEventData e.event_data).companyLink
        ((lookupMap st.currentServiceStates e.aggregate_id).bind (fun p => p.companyLink)) ∧
      v.bookingPlatformLink = spreadF (transformEventData e.event_data).bookingPlatformLink
        ((lookupMap st.currentServiceStates e.aggregate_id).bind (fun p => p.bookingPlatformLink)) ∧
      v.expectedLaunch = spreadF (transformEventData e.event_data).expectedLaunch
        ((lookupMap st.currentServiceStates e.aggregate_id).bind (fun p => p.expectedLaunch)) ∧
      v.geojsonPath = jsOr (transformEventData e.event_data).geojsonPath
        e.event_data.geometry_name ∧
      v.area_square_miles = lookupArea gm (jsOr (transformEventData e.event_data).geojsonPath
        e.event_data.geometry_name) ∧
      v.endDate = (lookupMap st.currentServiceStates e.aggregate_id).bind (fun p => p.endDate) ∧
      v.coordinates = (match parseInlineCoordinates (jsOr (transformEventData e.event_data).geojsonPath
          e.event_data.geometry_name) with
        | some c => some c
        | none => (lookupMap st.currentServiceStates e.aggregate_id).bind
            (fun p => p.coordinates)) := by
  rw [step_eq_created gm st e he, stepCreated_eq]
  exact ⟨mergedCreationState gm e (lookupMap st.currentServiceStates e.aggregate_id)
      true "active", rfl, lookupMap_setMap .., rfl, rfl, rfl, rfl, rfl, rfl, rfl, rfl,
    rfl, rfl, rfl, rfl, rfl, rfl, rfl, rfl, rfl, rfl, rfl, rfl, rfl, rfl, rfl⟩

/-- C4 amended, witness: the characterization instantiated on the spec
example's `service_created` event from the empty initial state. -/
theorem C4_created_inherit_amended_witness :
    ∃ v,
      (step [] initSt exCreated).allStates =
        closeLastOpen exCreated.aggregate_id exCreated.event_date initSt.allStates ++ [v] ∧
      lookupMap (step [] initSt exCreated).currentServiceStates exCreated.aggregate_id = some v ∧
      v.serviceId = exCreated.aggregate_id ∧
      v.isActive = true ∧
      v.status = some "active" ∧
      v.effectiveDate = exCreated.event_date ∧
      v.name = spreadF (transformEventData exCreated.event_data).name
        ((lookupMap initSt.currentServiceStates exCreated.aggregate_id).bind (fun p => p.name)) ∧
      v.company = spreadF (transformEventData exCreated.event_data).company
        ((lookupMap initSt.currentServiceStates exCreated.aggregate_id).bind (fun p => p.company)) ∧
      v.platform = spreadF (transformEventData exCreated.event_data).platform
        ((lookupMap initSt.currentServiceStates exCreated.aggregate_id).bind (fun p => p.platform)) ∧
      v.fares = spreadF (transformEventData exCreated.event_data).fares
        ((lookupMap initSt.currentServiceStates exCreated.aggregate_id).bind (fun p => p.fares)) ∧
      v.supervision = spreadF (transformEventData exCreated.event_data).supervision
        ((lookupMap initSt.currentServiceStates exCreated.aggregate_id).bind (fun p => p.supervision)) ∧
      v.access = spreadF (transformEventData exCreated.event_data).access
        ((lookupMap initSt.currentServiceStates exCreated.aggregate_id).bind (fun p => p.access)) ∧
      v.notes = spreadF (transformEventData exCreated.event_data).notes
        ((lookupMap initSt.currentServiceStates exCreated.aggregate_id).bind (fun p => p.notes)) ∧
      v.source_url = spreadF (transformEventData exCreated.event_data).source_url
        ((lookupMap initSt.currentServiceStates exCreated.aggregate_id).bind (fun p => p.source_url)) ∧
      v.directBooking = spreadF (transformEventData exCreated.event_data).directBooking
        ((lookupMap initSt.currentServiceStates exCreated.aggregate_id).bind (fun p => p.directBooking)) ∧
      v.vehicleTypes = spreadF (transformEventData exCreated.event_data).vehicleTypes
        ((lookupMap initSt.currentServiceStates exCreated.aggregate_id).bind (fun p => p.vehicleTypes)) ∧
      v.fleetPartner = spreadF (transformEventData exCreated.event_data).fleetPartner
        ((lookupMap initSt.currentServiceStates exCreated.aggregate_id).bind (fun p => p.fleetPartner)) ∧
      v.serviceModel = spreadF (transformEventData exCreated.event_data).serviceModel
        ((lookupMap initSt.currentServiceStates exCreated.aggregate_id).bind (fun p => p.serviceModel)) ∧
      v.companyLink = spreadF (transformEventData exCreated.event_data).companyLink
        ((lookupMap initSt.currentServiceStates exCreated.aggregate_id).bind (fun p => p.companyLink)) ∧
      v.bookingPlatformLink = spreadF (transformEventData exCreated.event_data).bookingPlatformLink
        ((lookupMap initSt.currentServiceStates exCreated.aggregate_id).bind (fun p => p.bookingPlatformLink)) ∧
      v.expectedLaunch = spreadF (transformEventData exCreated.event_data).expectedLaunch
        ((lookupMap initSt.currentServiceStates exCreated.aggregate_id).bind (fun p => p.expectedLaunch)) ∧
      v.geojsonPath = jsOr (transformEventData exCreated.event_data).geojsonPath
        exCreated.event_data.geometry_name ∧
      v.area_square_miles = lookupArea [] (jsOr (transformEventData exCreated.event_data).geojsonPath
        exCreated.event_data.geometry_name) ∧
      v.endDate = (lookupMap initSt.currentServiceStates exCreated.aggregate_id).bind
        (fun p => p.endDate) ∧
      v.coordinates = (match parseInlineCoordinates (jsOr (transformEventData exCreated.event_data).geojsonPath
          exCreated.event_data.geometry_name) with
        | some c => some c
        | none => (lookupMap initSt.currentServiceStates exCreated.aggregate_id).bind
            (fun p => p.coordinates)) :=
  C4_created_inherit_amended [] initSt exCreated rfl

/-! ## C2: same-day coalescing machinery -/

theorem updateLastOpen_of_decomp (sid : String) (f : SState → SState)
    {l l1 l2 : List SState} {o : SState} (hdec : l = l1 ++ o :: l2)
    (ho : isOpenFor sid o = true) (hl2 : ∀ t ∈ l2, isOpenFor sid t = false) :
    updateLastOpen sid f l = l1 ++ f o :: l2 := by
  subst hdec
  induction l1 with
  | nil =>
    have hr : l2.any (isOpenFor sid) = false := by
      rw [List.any_eq_false]
      intro x hx
      simp [hl2 x hx]
    unfold updateLastOpen
    simp [hr, ho]
  | cons x t ih =>
    have hr : (t ++ o :: l2).any (isOpenFor sid) = true :=
      List.any_eq_true.mpr ⟨o, by simp, ho⟩
    unfold updateLastOpen
    simp only [List.cons_append, hr, if_true]
    rw [ih]

theorem findLastOpen_of_decomp (sid : String) {l l1 l2 : List SState} {o : SState}
    (hdec : l = l1 ++ o :: l2) (ho : isOpenFor sid o = true)
    (hl2 : ∀ t ∈ l2, isOpenFor sid t = false) :
    findLastOpen sid l = some o := by
  subst hdec
  have hfil : l2.filter (isOpenFor sid) = [] := by
    rw [List.filter_eq_nil_iff]
    intro a ha
    simp [hl2 a ha]
  unfold findLastOpen
  rw [List.filter_append, List.filter_cons, ho]
  simp only [if_true, hfil]
  exact List.getLast?_concat _

/-- The per-event state transform shared by both update paths: apply the
event's single field, stamping `lastUpdated` with the event date. -/
def foldStepUpd (s : SState) (e : Ev) : SState :=
  { applyUpdateField e s with lastUpdated := e.event_date }

theorem set_lastUpdated_self (s : SState) (d : Nat) (h : s.lastUpdated = d) :
    ({ s with lastUpdated := d } : SState) = s := by
  cases s
  subst h
  rfl

theorem foldStepUpd_of_lastUpdated (e : Ev) (s : SState) (h : s.lastUpdated = e.event_date) :
    foldStepUpd s e = applyUpdateField e s := by
  unfold foldStepUpd
  exact set_lastUpdated_self _ _ (by rw [(applyUpdateField_skeleton e s).2.2.2.2.2.1, h])

theorem foldStepUpd_skeleton (s : SState) (e : Ev) :
    (foldStepUpd s e).serviceId = s.serviceId ∧
    (foldStepUpd s e).endDate = s.endDate ∧
    (foldStepUpd s e).effectiveDate = s.effectiveDate ∧
    (foldStepUpd s e).isActive = s.isActive ∧
    (foldStepUpd s e).status = s.status := by
  unfold foldStepUpd
  obtain ⟨h1, h2, h3, h4, h5, -, -⟩ := applyUpdateField_skeleton e s
  exact ⟨by simpa using h1, by simpa using h2, by simpa using h3,
    by simpa using h4, by simpa using h5⟩

theorem stepUpdate_same_date (st : EngineSt) (e : Ev) (o : SState)
    (hk : e.event_type ∈ updFieldKinds)
    (hmap : lookupMap st.currentServiceStates e.aggregate_id = some o)
    (hgate : (o.isActive || o.status == some "testing" || o.status == some "announced") = true)
    (hlo : findLastOpen e.aggregate_id st.allStates = some o)
    (hdt : o.effectiveDate = e.event_date) :
    stepUpdate st e =
      { currentServiceStates := setMap st.currentServiceStates e.aggregate_id
          ({ applyUpdateField e o with lastUpdated := e.event_date })
        allStates := replaceLastOpen e.aggregate_id
          ({ applyUpdateField e o with lastUpdated := e.event_date }) st.allStates } := by
  have hfk : updFieldKinds.contains e.event_type = true := by simpa using hk
  simp only [stepUpdate, hmap, hgate, if_true, hfk, hlo, hdt]

theorem stepUpdate_diff_date (st : EngineSt) (e : Ev) (o : SState)
    (hk : e.event_type ∈ updFieldKinds)
    (hmap : lookupMap st.currentServiceStates e.aggregate_id = some o)
    (hgate : (o.isActive || o.status == some "testing" || o.status == some "announced") = true)
    (hlo : findLastOpen e.aggregate_id st.allStates = some o)
    (hdt : ¬ o.effectiveDate = e.event_date) :
    stepUpdate st e =
      { currentServiceStates := setMap st.currentServiceStates e.aggregate_id
          (applyUpdateField e
            { o with
              id := mkStateId e.aggregate_id e.event_date
              effectiveDate := e.event_date
              lastUpdated := e.event_date })
        allStates := closeLastOpen e.aggregate_id e.event_date st.allStates ++
          [applyUpdateField e
            { o with
              id := mkStateId e.aggregate_id e.event_date
              effectiveDate := e.event_date
              lastUpdated := e.event_date }] } := by
  have hfk : updFieldKinds.contains e.event_type = true := by simpa using hk
  simp only [stepUpdate, hmap, hgate, if_true, hfk, hlo, hdt, if_false]

theorem isOpenFor_congr {s t : SState} (sid : String)
    (h1 : s.serviceId = t.serviceId) (h2 : s.endDate = t.endDate) :
    isOpenFor sid s = isOpenFor sid t := by
  simp [isOpenFor, h1, h2]

theorem fold_updates_regime (gm : GeoMap) (sid : String) (d : Nat) :
    ∀ (evs : List Ev) (st : EngineSt) (o : SState) (l1 l2 : List SState),
    (∀ e ∈ evs, e.aggregate_id = sid ∧ e.event_date = d ∧ e.event_type ∈ updFieldKinds) →
    lookupMap st.currentServiceStates sid = some o →
    st.allStates = l1 ++ o :: l2 →
    isOpenFor sid o = true →
    (∀ t ∈ l2, isOpenFor sid t = false) →
    (o.isActive || o.status == some "testing" || o.status == some "announced") = true →
    o.effectiveDate = d →
    (evs.foldl (step gm) st).allStates = l1 ++ (evs.foldl foldStepUpd o) :: l2 ∧
    lookupMap (evs.foldl (step gm) st).currentServiceStates sid =
      some (evs.foldl foldStepUpd o) := by
  intro evs
  induction evs with
  | nil =>
    intro st o l1 l2 _ hmap hdec _ _ _ _
    exact ⟨hdec, hmap⟩
  | cons e rest ih =>
    intro st o l1 l2 hev hmap hdec hopen hl2 hgate heff
    obtain ⟨hsid, hd, hk⟩ := hev e (List.mem_cons_self e rest)
    have hmap' : lookupMap st.currentServiceStates e.aggregate_id = some o := by
      rw [hsid]; exact hmap
    have hlo : findLastOpen e.aggregate_id st.allStates = some o := by
      rw [hsid]; exact findLastOpen_of_decomp sid hdec hopen hl2
    have hdt : o.effectiveDate = e.event_date := by rw [hd]; exact heff
    have hstep : step gm st e = stepUpdate st e :=
      step_eq_update gm st e (List.mem_cons_of_mem _ hk)
    rw [List.foldl_cons, List.foldl_cons, hstep,
      stepUpdate_same_date st e o hk hmap' hgate hlo hdt]
    have hrepl : replaceLastOpen e.aggregate_id
        ({ applyUpdateField e o with lastUpdated := e.event_date }) st.allStates =
        l1 ++ ({ applyUpdateField e o with lastUpdated := e.event_date } : SState) :: l2 := by
      rw [hsid]
      exact updateLastOpen_of_decomp sid _ hdec hopen hl2
    obtain ⟨hs1, hs2, hs3, hs4, hs5⟩ := foldStepUpd_skeleton o e
    have hveq : ({ applyUpdateField e o with lastUpdated := e.event_date } : SState) =
        foldStepUpd o e := rfl
    refine ih
      { currentServiceStates := setMap st.currentServiceStates e.aggregate_id
          ({ applyUpdateField e o with lastUpdated := e.event_date })
        allStates := replaceLastOpen e.aggregate_id
          ({ applyUpdateField e o with lastUpdated := e.event_date }) st.allStates }
      (foldStepUpd o e) l1 l2
      (fun e' he' => hev e' (List.mem_cons_of_mem e he'))
      ?_ ?_ ?_ hl2 ?_ ?_
    · show lookupMap (setMap st.currentServiceStates e.aggregate_id _) sid = _
      rw [hsid, hveq]
      exact lookupMap_setMap ..
    · show replaceLastOpen _ _ _ = _
      rw [hrepl, hveq]
    · rw [isOpenFor_congr sid hs1 hs2]
      exact hopen
    · rw [hs4, hs5]
      exact hgate
    · rw [hs3]
      exact heff

theorem countDate_append (sid : String) (d : Nat) (l1 l2 : List SState) :
    countDate sid d (l1 ++ l2) = countDate sid d l1 + countDate sid d l2 := by
  simp [countDate]

theorem countDate_cons (sid : String) (d : Nat) (s : SState) (l : List SState) :
    countDate sid d (s :: l) =
      (if (s.serviceId == sid && s.effectiveDate == d) = true then 1 else 0) +
        countDate sid d l := by
  by_cases hs : (s.serviceId == sid && s.effectiveDate == d) = true
  · simp [countDate, List.filter_cons, hs, Nat.add_comm]
  · simp [countDate, List.filter_cons, hs]

theorem foldl_foldStepUpd_skeleton :
    ∀ (evs : List Ev) (s : SState),
    (evs.foldl foldStepUpd s).serviceId = s.serviceId ∧
    (evs.foldl foldStepUpd s).endDate = s.endDate ∧
    (evs.foldl foldStepUpd s).effectiveDate = s.effectiveDate := by
  intro evs
  induction evs with
  | nil => exact fun s => ⟨rfl, rfl, rfl⟩
  | cons e rest ih =>
    intro s
    obtain ⟨h1, h2, h3, -, -⟩ := foldStepUpd_skeleton s e
    obtain ⟨g1, g2, g3⟩ := ih (foldStepUpd s e)
    exact ⟨by rw [List.foldl_cons, g1, h1], by rw [List.foldl_cons, g2, h2],
      by rw [List.foldl_cons, g3, h3]⟩

/-- C2.  Starting from an engine state whose map holds the service's
single open state `o` (the reachable-state aliasing of the source, made
explicit), with the lifecycle gate passing, folding N ≥ 1 consecutive
single-attribute update events for that service that all carry the same
date `d` emits exactly one state change for that date: exactly one
emitted state of the service carries effective date `d` afterwards; when
`o.effectiveDate = d` the fields are applied in place (the state list
keeps its shape, no new state and no new `endDate`), otherwise `o` is
closed with `endDate = d` and exactly one new state, cloned from `o`
with `effectiveDate = d`, is appended; in both cases the one state for
date `d` is the fold of all N field applications, in submission order,
over the open state (so all N updated fields are reflected). -/
theorem C2_same_day_coalescing (gm : GeoMap) (st : EngineSt) (sid : String) (d : Nat)
    (evs : List Ev) (o : SState) (l1 l2 : List SState)
    (hne : evs ≠ [])
    (hev : ∀ e ∈ evs, e.aggregate_id = sid ∧ e.event_date = d ∧ e.event_type ∈ updFieldKinds)
    (hmap : lookupMap st.currentServiceStates sid = some o)
    (hdec : st.allStates = l1 ++ o :: l2)
    (hopen : isOpenFor sid o = true)
    (hl2 : ∀ t ∈ l2, isOpenFor sid t = false)
    (hgate : (o.isActive || o.status == some "testing" || o.status == some "announced") = true)
    (hdate : countDate sid d st.allStates = if o.effectiveDate = d then 1 else 0) :
    countDate sid d ((evs.foldl (step gm) st).allStates) = 1 ∧
    (o.effectiveDate = d →
      (evs.foldl (step gm) st).allStates = l1 ++ (evs.foldl foldStepUpd o) :: l2) ∧
    (o.effectiveDate ≠ d →
      (evs.foldl (step gm) st).allStates =
        l1 ++ ({ o with endDate := some d }) :: (l2 ++
          [evs.foldl foldStepUpd
            ({ o with id := mkStateId sid d, effectiveDate := d, lastUpdated := d })])) := by
  have hsid : o.serviceId = sid := isOpenFor_serviceId hopen
  by_cases heff : o.effectiveDate = d
  · obtain ⟨hA, -⟩ :=
      fold_updates_regime gm sid d evs st o l1 l2 hev hmap hdec hopen hl2 hgate heff
    refine ⟨?_, fun _ => hA, fun hcon => absurd heff hcon⟩
    obtain ⟨w1, -, w3⟩ := foldl_foldStepUpd_skeleton evs o
    have hcnt : ((evs.foldl foldStepUpd o).serviceId == sid &&
        (evs.foldl foldStepUpd o).effectiveDate == d) =
        (o.serviceId == sid && o.effectiveDate == d) := by
      rw [w1, w3]
    rw [hA, countDate_append, countDate_cons, hcnt]
    rw [hdec, countDate_append, countDate_cons, if_pos heff] at hdate
    exact hdate
  · cases evs with
    | nil => exact absurd rfl hne
    | cons e0 rest =>
      obtain ⟨hsid0, hd0, hk0⟩ := hev e0 (List.mem_cons_self e0 rest)
      have hmap' : lookupMap st.currentServiceStates e0.aggregate_id = some o := by
        rw [hsid0]; exact hmap
      have hlo : findLastOpen e0.aggregate_id st.allStates = some o := by
        rw [hsid0]; exact findLastOpen_of_decomp sid hdec hopen hl2
      have hdt : ¬ o.effectiveDate = e0.event_date := by rw [hd0]; exact heff
      have hstep : step gm st e0 = stepUpdate st e0 :=
        step_eq_update gm st e0 (List.mem_cons_of_mem _ hk0)
      have hbase : ({ o with
          id := mkStateId e0.aggregate_id e0.event_date
          effectiveDate := e0.event_date
          lastUpdated := e0.event_date } : SState) =
          ({ o with id := mkStateId sid d, effectiveDate := d, lastUpdated := d } : SState) := by
        rw [hsid0, hd0]
      have hclose : closeLastOpen e0.aggregate_id e0.event_date st.allStates =
          l1 ++ ({ o with endDate := some d } : SState) :: l2 := by
        rw [hsid0, hd0]
        exact updateLastOpen_of_decomp sid _ hdec hopen hl2
      have hstep1 : step gm st e0 =
          { currentServiceStates := setMap st.currentServiceStates e0.aggregate_id
              (applyUpdateField e0
                ({ o with id := mkStateId sid d, effectiveDate := d, lastUpdated := d }))
            allStates := (l1 ++ ({ o with endDate := some d } : SState) :: l2) ++
              [applyUpdateField e0
                ({ o with id := mkStateId sid d, effectiveDate := d, lastUpdated := d })] } := by
        rw [hstep, stepUpdate_diff_date st e0 o hk0 hmap' hgate hlo hdt, hbase, hclose]
      obtain ⟨s1, s2, s3, s4, s5, -, -⟩ := applyUpdateField_skeleton e0
        ({ o with id := mkStateId sid d, effectiveDate := d, lastUpdated := d })
      have hopen0 : isOpenFor sid (applyUpdateField e0
          ({ o with id := mkStateId sid d, effectiveDate := d, lastUpdated := d })) = true := by
        rw [isOpenFor_congr sid (t := o) (by rw [s1]) (by rw [s2])]
        exact hopen
      obtain ⟨hB, -⟩ := fold_updates_regime gm sid d rest (step gm st e0)
        (applyUpdateField e0
          ({ o with id := mkStateId sid d, effectiveDate := d, lastUpdated := d }))
        (l1 ++ ({ o with endDate := some d } : SState) :: l2) []
        (fun e' he' => hev e' (List.mem_cons_of_mem e0 he'))
        (by rw [hstep1]
            show lookupMap (setMap st.currentServiceStates e0.aggregate_id _) sid = _
            rw [hsid0]
            exact lookupMap_setMap ..)
        (by rw [hstep1])
        hopen0
        (by intro t ht; simp at ht)
        (by rw [s4, s5]; exact hgate)
        (by rw [s3])
      have hfold0 : foldStepUpd
          ({ o with id := mkStateId sid d, effectiveDate := d, lastUpdated := d }) e0 =
          applyUpdateField e0
            ({ o with id := mkStateId sid d, effectiveDate := d, lastUpdated := d }) :=
        foldStepUpd_of_lastUpdated e0 _ (by rw [hd0])
      have hWeq : (e0 :: rest).foldl foldStepUpd
          ({ o with id := mkStateId sid d, effectiveDate := d, lastUpdated := d }) =
          rest.foldl foldStepUpd (applyUpdateField e0
            ({ o with id := mkStateId sid d, effectiveDate := d, lastUpdated := d })) := by
        rw [List.foldl_cons, hfold0]
      have hshape : ((e0 :: rest).foldl (step gm) st).allStates =
          l1 ++ ({ o with endDate := some d } : SState) :: (l2 ++
            [(e0 :: rest).foldl foldStepUpd
              ({ o with id := mkStateId sid d, effectiveDate := d, lastUpdated := d })]) := by
        rw [List.foldl_cons, hB, hWeq]
        simp
      refine ⟨?_, fun hcon => absurd hcon heff, fun _ => hshape⟩
      obtain ⟨w1, -, w3⟩ := foldl_foldStepUpd_skeleton (e0 :: rest)
        ({ o with id := mkStateId sid d, effectiveDate := d, lastUpdated := d })
      rw [hshape, countDate_append, countDate_cons, countDate_append, countDate_cons]
      rw [hdec, countDate_append, countDate_cons, if_neg heff] at hdate
      have hcntO : (({ o with endDate := some d } : SState).serviceId == sid &&
          ({ o with endDate := some d } : SState).effectiveDate == d) = false := by
        simp only [Bool.and_eq_false_iff]
        right
        show (o.effectiveDate == d) = false
        simpa using heff
      have hcntW : (((e0 :: rest).foldl foldStepUpd
          ({ o with id := mkStateId sid d, effectiveDate := d, lastUpdated := d })).serviceId
            == sid &&
          ((e0 :: rest).foldl foldStepUpd
            ({ o with id := mkStateId sid d, effectiveDate := d, lastUpdated := d })).effectiveDate
            == d) = true := by
        rw [w1, w3]
        show (o.serviceId == sid && (d == d)) = true
        simp [hsid]
      rw [hcntO, hcntW]
      have hnil : countDate sid d ([] : List SState) = 0 := rfl
      simp only [Bool.false_eq_true, if_false, if_true, hnil]
      omega

/-- An active service with one open state effective at date 5, for the
C2 and C7 witnesses. -/
def wCoalO : SState :=
  { id := "u-5", serviceId := "u", effectiveDate := 5, lastUpdated := 5,
    isActive := true, status := some "active", fares := some "No" }

def wCoalSt : EngineSt :=
  { currentServiceStates := [("u", wCoalO)], allStates := [wCoalO] }

def wCoalFares : Ev :=
  { aggregate_id := "u", event_date := 9, event_type := "fares_policy_changed",
    event_data := { new_fares := some "Yes" } }

def wCoalAccess : Ev :=
  { aggregate_id := "u", event_date := 9, event_type := "access_policy_changed",
    event_data := { new_access := some "Public" } }

/-- C2, witness: two same-day updates (fares, access) against an open
state of an earlier date produce exactly one state for that day,
reflecting both fields. -/
theorem C2_same_day_coalescing_witness :
    countDate "u" 9 (([wCoalFares, wCoalAccess].foldl (step []) wCoalSt).allStates) = 1 ∧
    (wCoalO.effectiveDate = 9 →
      ([wCoalFares, wCoalAccess].foldl (step []) wCoalSt).allStates =
        [] ++ ([wCoalFares, wCoalAccess].foldl foldStepUpd wCoalO) :: []) ∧
    (wCoalO.effectiveDate ≠ 9 →
      ([wCoalFares, wCoalAccess].foldl (step []) wCoalSt).allStates =
        [] ++ ({ wCoalO with endDate := some 9 }) :: ([] ++
          [[wCoalFares, wCoalAccess].foldl foldStepUpd
            ({ wCoalO with id := mkStateId "u" 9, effectiveDate := 9, lastUpdated := 9 })])) :=
  C2_same_day_coalescing [] wCoalSt "u" 9 [wCoalFares, wCoalAccess] wCoalO [] []
    (by decide) (by decide) (by decide) rfl (by decide) (by decide) (by decide) (by decide)

/-! ## C8 continued: the amended theorem, covering both the
state-creating branches and the geometry-update branch -/

/-- The geometry branch's resolved reference:
`event.event_data.geometry_name || event.event_data.new_geometry_name ||
lastState?.geojsonPath`. -/
def geoResolvedPath (st : EngineSt) (e : Ev) : Option String :=
  jsOr (jsOr e.event_data.geometry_name e.event_data.new_geometry_name)
    ((findLastOpen e.aggregate_id st.allStates).bind (fun s => s.geojsonPath))

/-- The fresh state the geometry branch pushes on its close-and-clone
path (a clone of the map entry with the recomputed geometry fields). -/
def geoDiffState (gm : GeoMap) (st : EngineSt) (e : Ev) (cs : SState) : SState :=
  { cs with
    id := mkStateId e.aggregate_id e.event_date
    effectiveDate := e.event_date
    lastUpdated := e.event_date
    geojsonPath := geoResolvedPath st e
    area_square_miles := lookupArea gm (geoResolvedPath st e)
    coordinates := match parseInlineCoordinates (geoResolvedPath st e) with
      | some c => some c
      | none => cs.coordinates }

theorem stepGeometry_same_date (gm : GeoMap) (st : EngineSt) (e : Ev) (cs lo : SState)
    (hmap : lookupMap st.currentServiceStates e.aggregate_id = some cs)
    (hgate : (cs.isActive || cs.status == some "testing" ||
      cs.status == some "announced") = true)
    (hlo : findLastOpen e.aggregate_id st.allStates = some lo)
    (hdt : lo.effectiveDate = e.event_date) :
    stepGeometry gm st e =
      { currentServiceStates := setMap st.currentServiceStates e.aggregate_id
          ({ lo with
             geojsonPath := geoResolvedPath st e
             area_square_miles := lookupArea gm (geoResolvedPath st e)
             lastUpdated := e.event_date
             coordinates := parseInlineCoordinates (geoResolvedPath st e) })
        allStates := replaceLastOpen e.aggregate_id
          ({ lo with
             geojsonPath := geoResolvedPath st e
             area_square_miles := lookupArea gm (geoResolvedPath st e)
             lastUpdated := e.event_date
             coordinates := parseInlineCoordinates (geoResolvedPath st e) })
          st.allStates } := by
  simp only [stepGeometry, geoResolvedPath, hmap, hgate, if_true, hlo, hdt]

theorem stepGeometry_diff_date (gm : GeoMap) (st : EngineSt) (e : Ev) (cs lo : SState)
    (hmap : lookupMap st.currentServiceStates e.aggregate_id = some cs)
    (hgate : (cs.isActive || cs.status == some "testing" ||
      cs.status == some "announced") = true)
    (hlo : findLastOpen e.aggregate_id st.allStates = some lo)
    (hdt : ¬ lo.effectiveDate = e.event_date) :
    stepGeometry gm st e =
      { currentServiceStates := setMap st.currentServiceStates e.aggregate_id
          (geoDiffState gm st e cs)
        allStates := closeLastOpen e.aggregate_id e.event_date st.allStates ++
          [geoDiffState gm st e cs] } := by
  simp only [stepGeometry, geoDiffState, geoResolvedPath, hmap, hgate, if_true, hlo,
    hdt, if_false]

theorem stepGeometry_no_open (gm : GeoMap) (st : EngineSt) (e : Ev) (cs : SState)
    (hmap : lookupMap st.currentServiceStates e.aggregate_id = some cs)
    (hgate : (cs.isActive || cs.status == some "testing" ||
      cs.status == some "announced") = true)
    (hlo : findLastOpen e.aggregate_id st.allStates = none) :
    stepGeometry gm st e =
      { currentServiceStates := setMap st.currentServiceStates e.aggregate_id
          (geoDiffState gm st e cs)
        allStates := closeLastOpen e.aggregate_id e.event_date st.allStates ++
          [geoDiffState gm st e cs] } := by
  simp only [stepGeometry, geoDiffState, geoResolvedPath, hmap, hgate, if_true, hlo]

/-- C8, amended.  Failure of geometry resolution never removes or blocks
emission of the affected state, and no warning is recorded by the
projection.  First part: for every state-creating event
(`service_testing`, `service_announced`, `service_created`) whose
geometry reference resolves to no area, exactly one state is still
appended, for the event's service, with `area_square_miles` null.
Second part: for every geometry-update event (`geometry_updated`,
`'Service Area Change'`) inside the lifecycle window whose resolved
reference (`geometry_name || new_geometry_name || lastState?.geojsonPath`)
has no area in the geometry map, the affected state is still emitted
with a null area — either a fresh state is appended (exactly one state
added) or, on a same-date update, the last open state is updated in
place (no state added or removed).  In both parts the projection
continues (the remaining events are folded as usual) and its warning
output is empty. -/
theorem C8_geometry_degradation_amended (gm : GeoMap) (st : EngineSt) (e : Ev) :
    ((e.event_type = "service_testing" ∨ e.event_type = "service_announced" ∨
        e.event_type = "service_created") →
      lookupArea gm (jsOr (transformEventData e.event_data).geojsonPath
        e.event_data.geometry_name) = none →
      ∃ v, ((step gm st e).allStates).getLast? = some v ∧ v.area_square_miles = none ∧
        v.serviceId = e.aggregate_id ∧
        (step gm st e).allStates.length = st.allStates.length + 1) ∧
    ((e.event_type = "geometry_updated" ∨ e.event_type = "Service Area Change") →
      ∀ cs, lookupMap st.currentServiceStates e.aggregate_id = some cs →
        (cs.isActive || cs.status == some "testing" ||
          cs.status == some "announced") = true →
        lookupArea gm (geoResolvedPath st e) = none →
        ∃ v, v.area_square_miles = none ∧
          (((step gm st e).allStates.getLast? = some v ∧
            (step gm st e).allStates.length = st.allStates.length + 1) ∨
           (findLastOpen e.aggregate_id ((step gm st e).allStates) = some v ∧
            (step gm st e).allStates.length = st.allStates.length))) ∧
    buildServiceAreasWarnings [e] gm = [] := by
  refine ⟨?_, ?_, rfl⟩
  · intro he harea
    rcases he with he | he | he
    · rw [step_eq_testing gm st e he]
      obtain ⟨v, hv1, hv2, hsh⟩ := stepTesting_shape_area gm st e
      rw [hsh]
      exact ⟨v, by simp [List.getLast?_concat], by rw [hv2, harea], hv1, by simp⟩
    · rw [step_eq_announced gm st e he, stepAnnounced_eq]
      refine ⟨mergedCreationState gm e (lookupMap st.currentServiceStates e.aggregate_id)
        false "announced", by simp [List.getLast?_concat], ?_,
        mergedCreationState_serviceId .., ?_⟩
      · rw [mergedCreationState_area, harea]
      · simp [closeLastOpen, length_updateLastOpen]
    · rw [step_eq_created gm st e he, stepCreated_eq]
      refine ⟨mergedCreationState gm e (lookupMap st.currentServiceStates e.aggregate_id)
        true "active", by simp [List.getLast?_concat], ?_,
        mergedCreationState_serviceId .., ?_⟩
      · rw [mergedCreationState_area, harea]
      · simp [closeLastOpen, length_updateLastOpen]
  · intro hgeo cs hcs hgate harea
    rw [step_eq_geometry gm st e hgeo]
    cases hlo : findLastOpen e.aggregate_id st.allStates with
    | some lo =>
      by_cases hdt : lo.effectiveDate = e.event_date
      · rw [stepGeometry_same_date gm st e cs lo hcs hgate hlo hdt]
        obtain ⟨l1, l2, hdec, hoo, hl2, hupd⟩ :=
          findLastOpen_decomp e.aggregate_id st.allStates lo hlo
        refine ⟨{ lo with
            geojsonPath := geoResolvedPath st e
            area_square_miles := lookupArea gm (geoResolvedPath st e)
            lastUpdated := e.event_date
            coordinates := parseInlineCoordinates (geoResolvedPath st e) },
          harea, Or.inr ⟨?_, ?_⟩⟩
        · exact findLastOpen_of_decomp e.aggregate_id
            (hupd (fun _ => { lo with
              geojsonPath := geoResolvedPath st e
              area_square_miles := lookupArea gm (geoResolvedPath st e)
              lastUpdated := e.event_date
              coordinates := parseInlineCoordinates (geoResolvedPath st e) }))
            ((isOpenFor_congr e.aggregate_id rfl rfl).trans hoo) hl2
        · exact length_updateLastOpen e.aggregate_id _ st.allStates
      · rw [stepGeometry_diff_date gm st e cs lo hcs hgate hlo hdt]
        refine ⟨geoDiffState gm st e cs, harea, Or.inl ⟨List.getLast?_concat _, ?_⟩⟩
        simp [closeLastOpen, length_updateLastOpen]
    | none =>
      rw [stepGeometry_no_open gm st e cs hcs hgate hlo]
      refine ⟨geoDiffState gm st e cs, harea, Or.inl ⟨List.getLast?_concat _, ?_⟩⟩
      simp [closeLastOpen, length_updateLastOpen]

/-- A `geometry_updated` event whose reference no entry of the geometry
map resolves, aimed at a service with an active open state of an earlier
date. -/
def wGeoEv : Ev :=
  { aggregate_id := "u", event_date := 9, event_type := "geometry_updated",
    event_data := { geometry_name := some "nowhere" } }

/-- C8 amended, witness: a testing event with an unresolvable geometry
reference, from the empty initial state, still emits one state with a
null area; a `geometry_updated` event with an unresolvable reference,
against an open active state, still emits its state with a null area;
and nothing is recorded. -/
theorem C8_geometry_degradation_amended_witness :
    (∃ v, ((step [] initSt cexGeoTestingEv).allStates).getLast? = some v ∧
      v.area_square_miles = none ∧ v.serviceId = cexGeoTestingEv.aggregate_id ∧
      (step [] initSt cexGeoTestingEv).allStates.length = initSt.allStates.length + 1) ∧
    (∃ v, v.area_square_miles = none ∧
      (((step [] wCoalSt wGeoEv).allStates.getLast? = some v ∧
        (step [] wCoalSt wGeoEv).allStates.length = wCoalSt.allStates.length + 1) ∨
       (findLastOpen wGeoEv.aggregate_id ((step [] wCoalSt wGeoEv).allStates) = some v ∧
        (step [] wCoalSt wGeoEv).allStates.length = wCoalSt.allStates.length))) ∧
    buildServiceAreasWarnings [cexGeoTestingEv] [] = [] :=
  ⟨(C8_geometry_degradation_amended [] initSt cexGeoTestingEv).1 (Or.inl rfl) (by decide),
   (C8_geometry_degradation_amended [] wCoalSt wGeoEv).2.1 (Or.inl rfl) wCoalO
     (by decide) (by decide) (by decide),
   (C8_geometry_degradation_amended [] initSt cexGeoTestingEv).2.2⟩

/-! ## C7: multi-value attributes are replaced wholesale, not parsed -/

/-- Trim leading and trailing whitespace from a character list. -/
def trimChars (cs : List Char) : List Char :=
  ((cs.dropWhile Char.isWhitespace).reverse.dropWhile Char.isWhitespace).reverse

/-- The multi-value parse the spec describes, written from the spec's
words: split the payload string on semicolons and trim each component. -/
def specMultiValueParse (s : String) : List String :=
  (s.toList.splitOn ';').map (fun c => String.mk (trimChars c))

theorem applyUpdateField_vehicleTypes (e : Ev) (s : SState)
    (h : e.event_type = "vehicle_types_updated") :
    (applyUpdateField e s).vehicleTypes =
      jsOr e.event_data.new_vehicle_types e.event_data.vehicle_types := by
  simp [applyUpdateField, h]

theorem applyUpdateField_platform (e : Ev) (s : SState)
    (h : e.event_type = "platform_updated") :
    (applyUpdateField e s).platform = e.event_data.new_platform := by
  simp [applyUpdateField, h]

def cexVtCreated : Ev :=
  { aggregate_id := "vt", event_date := 1, event_type := "service_created",
    event_data := { vehicle_types := some "ModelX" } }

def cexVtUpd : Ev :=
  { aggregate_id := "vt", event_date := 2, event_type := "vehicle_types_updated",
    event_data := { new_vehicle_types := some "Waymo ; Uber" } }

/-- C7, counterexample.  A vehicles update with payload `"Waymo ; Uber"`
stores that raw string on the resulting state: the engine performs no
semicolon splitting and no trimming (the split-and-trimmed components
would rejoin to `"Waymo;Uber"`, a different string), refuting "the
payload string is parsed by splitting on semicolons and trimming each
component". -/
theorem C7_multivalue_counterexample :
    ((buildServiceAreasFromEvents [cexVtCreated, cexVtUpd] []).map
      (fun s => s.vehicleTypes)) = [some "ModelX", some "Waymo ; Uber"] ∧
    specMultiValueParse "Waymo ; Uber" = ["Waymo", "Uber"] ∧
    String.intercalate ";" (specMultiValueParse "Waymo ; Uber") = "Waymo;Uber" ∧
    ("Waymo ; Uber" : String) ≠ "Waymo;Uber" :=
  ⟨rfl, by decide, by decide, by decide⟩

/-- C7, amended.  An update to a multi-value attribute (vehicles,
platform) stores the raw payload value wholesale on the resulting
current state — `new_vehicle_types || vehicle_types` for vehicles,
`new_platform` for platform — with no dependence on the attribute's
previous value: no element-wise merging or appending with prior values
ever occurs (and no splitting or trimming is performed by the engine;
semicolon-separated parsing is left to the consumer of the output). -/
theorem C7_multivalue_amended (st : EngineSt) (e : Ev) (o : SState)
    (hk : e.event_type = "vehicle_types_updated" ∨ e.event_type = "platform_updated")
    (hmap : lookupMap st.currentServiceStates e.aggregate_id = some o)
    (hgate : (o.isActive || o.status == some "testing" || o.status == some "announced") = true)
    (hlo : findLastOpen e.aggregate_id st.allStates = some o) :
    ∃ v, lookupMap (stepUpdate st e).currentServiceStates e.aggregate_id = some v ∧
      (e.event_type = "vehicle_types_updated" →
        v.vehicleTypes = jsOr e.event_data.new_vehicle_types e.event_data.vehicle_types) ∧
      (e.event_type = "platform_updated" →
        v.platform = e.event_data.new_platform) := by
  have hk' : e.event_type ∈ updFieldKinds := by
    rcases hk with h | h <;> simp [updFieldKinds, h]
  by_cases hdt : o.effectiveDate = e.event_date
  · rw [stepUpdate_same_date st e o hk' hmap hgate hlo hdt]
    refine ⟨_, lookupMap_setMap .., fun hv => ?_, fun hp => ?_⟩
    · show ({ applyUpdateField e o with lastUpdated := e.event_date } : SState).vehicleTypes = _
      rw [show ({ applyUpdateField e o with
        lastUpdated := e.event_date } : SState).vehicleTypes =
          (applyUpdateField e o).vehicleTypes from rfl]
      exact applyUpdateField_vehicleTypes e o hv
    · show ({ applyUpdateField e o with lastUpdated := e.event_date } : SState).platform = _
      rw [show ({ applyUpdateField e o with
        lastUpdated := e.event_date } : SState).platform =
          (applyUpdateField e o).platform from rfl]
      exact applyUpdateField_platform e o hp
  · rw [stepUpdate_diff_date st e o hk' hmap hgate hlo hdt]
    exact ⟨_, lookupMap_setMap ..,
      fun hv => applyUpdateField_vehicleTypes e _ hv,
      fun hp => applyUpdateField_platform e _ hp⟩

def wVtEv : Ev :=
  { aggregate_id := "u", event_date := 9, event_type := "vehicle_types_updated",
    event_data := { new_vehicle_types := some "A;B" } }

/-- C7 amended, witness: a vehicles update against an active open state
stores exactly the payload string. -/
theorem C7_multivalue_amended_witness :
    ∃ v, lookupMap (stepUpdate wCoalSt wVtEv).currentServiceStates wVtEv.aggregate_id =
        some v ∧
      (wVtEv.event_type = "vehicle_types_updated" →
        v.vehicleTypes = jsOr wVtEv.event_data.new_vehicle_types
          wVtEv.event_data.vehicle_types) ∧
      (wVtEv.event_type = "platform_updated" →
        v.platform = wVtEv.event_data.new_platform) :=
  C7_multivalue_amended wCoalSt wVtEv wCoalO (Or.inl rfl) (by decide) (by decide) (by decide)

/-! ## C10: the projection never mutates its input

JavaScript objects are mutable and shared by reference, so the frame
claim "the input array and its event records are unchanged, and only
state objects created by the run are mutated" is stated over an explicit
object store: objects live in a heap (a list indexed by object id),
`{...obj}` copies allocate, property assignments write at an id, and the
input array, its event records and their `event_data` payloads are the
objects already in the heap before the call.  The engine below is the
same per-event loop as `step`, written store-passing; the values it
computes reuse the branch-state definitions above, while every mutation
of the source (`lastState.endDate = ...`, the in-place field updates,
the final status pass) becomes a heap write at the mutated object's id.
Reading the inactive copy of `service_ended` through the map's id after
the `endDate` write reproduces the source's aliasing directly. -/

inductive Obj where
  | arrObj (elems : List Nat)
  | evObj (aggregate_id : String) (event_date : Nat) (event_type : String) (dataId : Nat)
  | datObj (d : EventData)
  | stateObj (s : SState)
deriving DecidableEq, Repr

/-- Read an event record (and, through its `dataId`, its payload) from
the heap; a dangling id reads as an empty record. -/
def getEvent (h : List Obj) (i : Nat) : Ev :=
  match h.get? i with
  | some (Obj.evObj sid d t dataId) =>
    { aggregate_id := sid
      event_date := d
      event_type := t
      event_data := match h.get? dataId with
        | some (Obj.datObj ed) => ed
        | _ => {} }
  | _ => { aggregate_id := "", event_date := 0, event_type := "", event_data := {} }

/-- Read a state object from the heap; a dangling id reads as an empty
state. -/
def stateAt (h : List Obj) (i : Nat) : SState :=
  match h.get? i with
  | some (Obj.stateObj s) => s
  | _ => {}

def lookupId (m : List (String × Nat)) (k : String) : Option Nat :=
  match m with
  | [] => none
  | (k', v) :: rest => if k' = k then some v else lookupId rest k

def setId (m : List (String × Nat)) (k : String) (v : Nat) : List (String × Nat) :=
  match m with
  | [] => [(k, v)]
  | (k', v') :: rest => if k' = k then (k, v) :: rest else (k', v') :: setId rest k v

/-- The engine's running state in the store-passing embedding: the heap,
and the map / output array now holding object ids. -/
structure HSt where
  heap : List Obj
  currentServiceStates : List (String × Nat)
  allStates : List Nat
deriving Repr

/-- `allStates.filter(s => s.serviceId === sid && !s.endDate).pop()`, on
ids: the id of the last open state of the service. -/
def findLastOpenId (h : List Obj) (sid : String) (ids : List Nat) : Option Nat :=
  (ids.filter (fun i => isOpenFor sid (stateAt h i))).getLast?

/-- `lastState.endDate = eventDate.toISOString()`: a heap write at the
last open state's id (no-op when there is none). -/
def closeLastOpenH (h : List Obj) (sid : String) (d : Nat) (ids : List Nat) : List Obj :=
  match findLastOpenId h sid ids with
  | some i => h.set i (Obj.stateObj { stateAt h i with endDate := some d })
  | none => h

def heapStep (geometryMap : GeoMap) (s : HSt) (eid : Nat) : HSt :=
  let event := getEvent s.heap eid
  let serviceId := event.aggregate_id
  let eventDate := event.event_date
  let csIdOpt := lookupId s.currentServiceStates serviceId
  if event.event_type = "service_testing" then
    let newId := s.heap.length
    { heap := s.heap ++ [Obj.stateObj (testingState geometryMap event)]
      currentServiceStates := setId s.currentServiceStates serviceId newId
      allStates := s.allStates ++ [newId] }
  else if event.event_type = "service_announced" then
    let v := mergedCreationState geometryMap event (csIdOpt.map (stateAt s.heap))
      false "announced"
    let h1 := closeLastOpenH s.heap serviceId eventDate s.allStates
    let newId := h1.length
    { heap := h1 ++ [Obj.stateObj v]
      currentServiceStates := setId s.currentServiceStates serviceId newId
      allStates := s.allStates ++ [newId] }
  else if event.event_type = "service_created" then
    let v := mergedCreationState geometryMap event (csIdOpt.map (stateAt s.heap))
      true "active"
    let h1 := closeLastOpenH s.heap serviceId eventDate s.allStates
    let newId := h1.length
    { heap := h1 ++ [Obj.stateObj v]
      currentServiceStates := setId s.currentServiceStates serviceId newId
      allStates := s.allStates ++ [newId] }
  else if event.event_type = "service_ended" then
    match csIdOpt with
    | some ci =>
      if (stateAt s.heap ci).isActive then
        let h1 := closeLastOpenH s.heap serviceId eventDate s.allStates
        let newId := h1.length
        { heap := h1 ++ [Obj.stateObj ({ stateAt h1 ci with isActive := false })]
          currentServiceStates := setId s.currentServiceStates serviceId newId
          allStates := s.allStates }
      else s
    | none => s
  else if event.event_type = "geometry_updated" || event.event_type = "Service Area Change" then
    match csIdOpt with
    | some ci =>
      let cs := stateAt s.heap ci
      if cs.isActive || cs.status == some "testing" || cs.status == some "announced" then
        let lastIdOpt := findLastOpenId s.heap serviceId s.allStates
        let newGeojsonPath :=
          jsOr (jsOr event.event_data.geometry_name event.event_data.new_geometry_name)
            ((lastIdOpt.map (stateAt s.heap)).bind (fun t => t.geojsonPath))
        let areaSquareMiles := lookupArea geometryMap newGeojsonPath
        let coordinates := parseInlineCoordinates newGeojsonPath
        let diffState : SState :=
          { cs with
            id := mkStateId serviceId eventDate
            effectiveDate := eventDate
            lastUpdated := eventDate
            geojsonPath := newGeojsonPath
            area_square_miles := areaSquareMiles
            coordinates := match coordinates with
              | some c => some c
              | none => cs.coordinates }
        let h1 := closeLastOpenH s.heap serviceId eventDate s.allStates
        let newId := h1.length
        let diffResult : HSt :=
          { heap := h1 ++ [Obj.stateObj diffState]
            currentServiceStates := setId s.currentServiceStates serviceId newId
            allStates := s.allStates ++ [newId] }
        match lastIdOpt with
        | some li =>
          if (stateAt s.heap li).effectiveDate = eventDate then
            { heap := s.heap.set li (Obj.stateObj
                { stateAt s.heap li with
                  geojsonPath := newGeojsonPath
                  area_square_miles := areaSquareMiles
                  lastUpdated := eventDate
                  coordinates := coordinates })
              currentServiceStates := setId s.currentServiceStates serviceId li
              allStates := s.allStates }
          else diffResult
        | none => diffResult
      else s
    | none => s
  else if updateOuterKinds.contains event.event_type then
    match csIdOpt with
    | some ci =>
      let cs := stateAt s.heap ci
      if cs.isActive || cs.status == some "testing" || cs.status == some "announced" then
        if updFieldKinds.contains event.event_type then
          let lastIdOpt := findLastOpenId s.heap serviceId s.allStates
          let diffState : SState :=
            applyUpdateField event
              { cs with
                id := mkStateId serviceId eventDate
                effectiveDate := eventDate
                lastUpdated := eventDate }
          let h1 := closeLastOpenH s.heap serviceId eventDate s.allStates
          let newId := h1.length
          let diffResult : HSt :=
            { heap := h1 ++ [Obj.stateObj diffState]
              currentServiceStates := setId s.currentServiceStates serviceId newId
              allStates := s.allStates ++ [newId] }
          match lastIdOpt with
          | some li =>
            if (stateAt s.heap li).effectiveDate = eventDate then
              { heap := s.heap.set li (Obj.stateObj
                  ({ applyUpdateField event (stateAt s.heap li) with
                    lastUpdated := eventDate }))
                currentServiceStates := setId s.currentServiceStates serviceId li
                allStates := s.allStates }
            else diffResult
          | none => diffResult
        else s
      else s
    | none => s
  else s

/-- The event ids held by the input array object. -/
def inputIds (h0 : List Obj) (arrId : Nat) : List Nat :=
  match h0.get? arrId with
  | some (Obj.arrObj l) => l
  | _ => []

/-- `[...events].sort((a, b) => dateA - dateB)` on ids: the stable date
sort of a copy of the input array's contents (the input array object is
only read). -/
def sortedIdsOf (h0 : List Obj) (arrId : Nat) : List Nat :=
  List.insertionSort
    (fun a b => (getEvent h0 a).event_date ≤ (getEvent h0 b).event_date)
    (inputIds h0 arrId)

/-- The final default-status pass: one in-place heap write per emitted
state object. -/
def finalizePass (s1 : HSt) : HSt :=
  s1.allStates.foldl
    (fun s i => { s with heap := s.heap.set i (Obj.stateObj (finalizeOne (stateAt s.heap i))) })
    s1

/-- `buildServiceAreasFromEvents` in the store-passing embedding: read
the event ids from the input array object, allocate the sorted copy of
the array (the `[...events]` spread), fold the per-event loop from empty
locals, then run the default-status pass. -/
def runHeap (geometryMap : GeoMap) (h0 : List Obj) (arrId : Nat) : HSt :=
  finalizePass
    ((sortedIdsOf h0 arrId).foldl (heapStep geometryMap)
      { heap := h0 ++ [Obj.arrObj (sortedIdsOf h0 arrId)]
        currentServiceStates := []
        allStates := [] })

theorem take_set_of_le {α : Type} (l : List α) (i : Nat) (v : α) (n : Nat) (h : n ≤ i) :
    (l.set i v).take n = l.take n := by
  induction l generalizing i n with
  | nil => simp
  | cons x t ih =>
    cases i with
    | zero =>
      have : n = 0 := Nat.le_zero.mp h
      subst this
      simp
    | succ j =>
      cases n with
      | zero => simp
      | succ m =>
        simp only [List.set, List.take]
        rw [ih j m (Nat.le_of_succ_le_succ h)]

theorem findLastOpenId_mem {h : List Obj} {sid : String} {ids : List Nat} {i : Nat}
    (hf : findLastOpenId h sid ids = some i) : i ∈ ids := by
  unfold findLastOpenId at hf
  exact List.mem_of_mem_filter (List.mem_of_mem_getLast? hf)

theorem mem_setId {p : String × Nat} {k : String} {v : Nat} :
    ∀ m : List (String × Nat), p ∈ setId m k v → p ∈ m ∨ p = (k, v) := by
  intro m
  induction m with
  | nil =>
    intro hp
    right
    simpa [setId] using hp
  | cons q rest ih =>
    obtain ⟨k0, v0⟩ := q
    intro hp
    unfold setId at hp
    by_cases hk : k0 = k
    · rw [if_pos hk] at hp
      rcases List.mem_cons.mp hp with hp | hp
      · exact Or.inr hp
      · exact Or.inl (List.mem_cons_of_mem _ hp)
    · rw [if_neg hk] at hp
      rcases List.mem_cons.mp hp with hp | hp
      · exact Or.inl (hp ▸ List.mem_cons_self _ _)
      · rcases ih hp with hh | hh
        · exact Or.inl (List.mem_cons_of_mem _ hh)
        · exact Or.inr hh

/-- The run-long separation invariant: the heap only grows past the
input prefix, and every object id the engine tracks (map values and
emitted state ids) points past the input prefix. -/
def heapOk (n : Nat) (s : HSt) : Prop :=
  n ≤ s.heap.length ∧ (∀ p ∈ s.currentServiceStates, n ≤ p.2) ∧ ∀ i ∈ s.allStates, n ≤ i

theorem closeLastOpenH_length (h : List Obj) (sid : String) (d : Nat) (ids : List Nat) :
    (closeLastOpenH h sid d ids).length = h.length := by
  unfold closeLastOpenH
  cases hf : findLastOpenId h sid ids with
  | none => rfl
  | some i => simp

theorem closeLastOpenH_take {n : Nat} (h : List Obj) (sid : String) (d : Nat)
    (ids : List Nat) (hids : ∀ i ∈ ids, n ≤ i) :
    (closeLastOpenH h sid d ids).take n = h.take n := by
  unfold closeLastOpenH
  cases hf : findLastOpenId h sid ids with
  | none => rfl
  | some i => exact take_set_of_le h i _ n (hids i (findLastOpenId_mem hf))

theorem heapOk_mapset {n : Nat} {m : List (String × Nat)} {k : String} {v : Nat}
    (hm : ∀ p ∈ m, n ≤ p.2) (hv : n ≤ v) : ∀ p ∈ setId m k v, n ≤ p.2 := by
  intro p hp
  rcases mem_setId m hp with hh | hh
  · exact hm p hh
  · rw [hh]
    exact hv

theorem frame_alloc_plain (n : Nat) (s : HSt) (hok : heapOk n s) (sid : String) (v : Obj) :
    heapOk n { heap := s.heap ++ [v]
               currentServiceStates := setId s.currentServiceStates sid s.heap.length
               allStates := s.allStates ++ [s.heap.length] } ∧
    (s.heap ++ [v]).take n = s.heap.take n := by
  obtain ⟨hlen, hmap, hids⟩ := hok
  refine ⟨⟨by simp; omega, heapOk_mapset hmap hlen, ?_⟩,
    List.take_append_of_le_length hlen⟩
  intro i hi
  rcases List.mem_append.mp hi with hh | hh
  · exact hids i hh
  · rw [List.mem_singleton.mp hh]
    exact hlen

theorem frame_close_alloc (n : Nat) (s : HSt) (hok : heapOk n s) (sid : String) (d : Nat)
    (v : Obj) (ids' : List Nat)
    (hids' : ids' = s.allStates ∨
      ids' = s.allStates ++ [(closeLastOpenH s.heap sid d s.allStates).length]) :
    heapOk n { heap := closeLastOpenH s.heap sid d s.allStates ++ [v]
               currentServiceStates := setId s.currentServiceStates sid
                 (closeLastOpenH s.heap sid d s.allStates).length
               allStates := ids' } ∧
    (closeLastOpenH s.heap sid d s.allStates ++ [v]).take n = s.heap.take n := by
  obtain ⟨hlen, hmap, hids⟩ := hok
  have hclen : (closeLastOpenH s.heap sid d s.allStates).length = s.heap.length :=
    closeLastOpenH_length ..
  have htake : (closeLastOpenH s.heap sid d s.allStates).take n = s.heap.take n :=
    closeLastOpenH_take s.heap sid d s.allStates hids
  refine ⟨⟨by simp [hclen]; omega, heapOk_mapset hmap (by rw [hclen]; exact hlen), ?_⟩, ?_⟩
  · intro i hi
    rcases hids' with hh | hh <;> rw [hh] at hi
    · exact hids i hi
    · rcases List.mem_append.mp hi with hm2 | hm2
      · exact hids i hm2
      · rw [List.mem_singleton.mp hm2, hclen]
        exact hlen
  · rw [List.take_append_of_le_length (by rw [hclen]; exact hlen), htake]

theorem frame_set_inplace (n : Nat) (s : HSt) (hok : heapOk n s) (sid : String)
    (li : Nat) (hmem : li ∈ s.allStates) (v : Obj) :
    heapOk n { heap := s.heap.set li v
               currentServiceStates := setId s.currentServiceStates sid li
               allStates := s.allStates } ∧
    (s.heap.set li v).take n = s.heap.take n := by
  obtain ⟨hlen, hmap, hids⟩ := hok
  exact ⟨⟨by simp; omega, heapOk_mapset hmap (hids li hmem), hids⟩,
    take_set_of_le s.heap li v n (hids li hmem)⟩

theorem heapStep_frame (gm : GeoMap) (n : Nat) (s : HSt) (eid : Nat) (hok : heapOk n s) :
    heapOk n (heapStep gm s eid) ∧ (heapStep gm s eid).heap.take n = s.heap.take n := by
  by_cases h1 : (getEvent s.heap eid).event_type = "service_testing"
  · simp only [heapStep, h1, String.reduceEq, if_true, if_false, reduceIte]
    exact frame_alloc_plain n s hok _ _
  · by_cases h2 : (getEvent s.heap eid).event_type = "service_announced"
    · simp only [heapStep, h1, h2, String.reduceEq, if_true, if_false, reduceIte]
      exact frame_close_alloc n s hok _ _ _ _ (Or.inr rfl)
    · by_cases h3 : (getEvent s.heap eid).event_type = "service_created"
      · simp only [heapStep, h1, h2, h3, String.reduceEq, if_true, if_false, reduceIte]
        exact frame_close_alloc n s hok _ _ _ _ (Or.inr rfl)
      · by_cases h4 : (getEvent s.heap eid).event_type = "service_ended"
        · simp only [heapStep, h1, h2, h3, h4, String.reduceEq, if_true, if_false, reduceIte]
          cases hcs : lookupId s.currentServiceStates (getEvent s.heap eid).aggregate_id with
          | none => exact ⟨hok, by simp⟩
          | some ci =>
            by_cases hact : (stateAt s.heap ci).isActive = true
            · simp only [hact, if_true]
              exact frame_close_alloc n s hok _ _ _ _ (Or.inl rfl)
            · simp only [Bool.not_eq_true] at hact
              simp only [hact, Bool.false_eq_true, if_false]
              exact ⟨hok, by simp⟩
        · by_cases h5 : ((getEvent s.heap eid).event_type = "geometry_updated" ∨
              (getEvent s.heap eid).event_type = "Service Area Change")
          · have main : ∀ hres : HSt, hres = heapStep gm s eid →
                (heapStep gm s eid) = hres →
                heapOk n (heapStep gm s eid) ∧
                  (heapStep gm s eid).heap.take n = s.heap.take n := by
              intro hres _ _
              rcases h5 with h5 | h5 <;>
              · simp only [heapStep, h1, h2, h3, h4, h5, String.reduceEq, if_true, if_false,
                  reduceIte, Bool.or_true, Bool.true_or, Bool.or_false, Bool.false_or]
                cases hcs : lookupId s.currentServiceStates
                    (getEvent s.heap eid).aggregate_id with
                | none => exact ⟨hok, by simp⟩
                | some ci =>
                  by_cases hgate : ((stateAt s.heap ci).isActive ||
                      (stateAt s.heap ci).status == some "testing" ||
                      (stateAt s.heap ci).status == some "announced") = true
                  · simp only [hgate, if_true]
                    cases hlo : findLastOpenId s.heap (getEvent s.heap eid).aggregate_id
                        s.allStates with
                    | none =>
                      simp only
                      exact frame_close_alloc n s hok _ _ _ _ (Or.inr rfl)
                    | some li =>
                      by_cases hdt : (stateAt s.heap li).effectiveDate =
                          (getEvent s.heap eid).event_date
                      · simp only [hdt, if_true, reduceIte]
                        exact frame_set_inplace n s hok _ li (findLastOpenId_mem hlo) _
                      · simp only [hdt, if_false, reduceIte]
                        exact frame_close_alloc n s hok _ _ _ _ (Or.inr rfl)
                  · simp only [Bool.not_eq_true] at hgate
                    simp only [hgate, Bool.false_eq_true, if_false]
                    exact ⟨hok, by simp⟩
            exact main (heapStep gm s eid) rfl rfl
          · by_cases h6 : updateOuterKinds.contains (getEvent s.heap eid).event_type = true
            · have h5a : ¬ (getEvent s.heap eid).event_type = "geometry_updated" :=
                fun hh => h5 (Or.inl hh)
              have h5b : ¬ (getEvent s.heap eid).event_type = "Service Area Change" :=
                fun hh => h5 (Or.inr hh)
              simp only [heapStep, h1, h2, h3, h4, h5a, h5b, h6, String.reduceEq, if_true,
                if_false, reduceIte, Bool.or_self]
              cases hcs : lookupId s.currentServiceStates
                  (getEvent s.heap eid).aggregate_id with
              | none => exact ⟨hok, by simp⟩
              | some ci =>
                by_cases hgate : ((stateAt s.heap ci).isActive ||
                    (stateAt s.heap ci).status == some "testing" ||
                    (stateAt s.heap ci).status == some "announced") = true
                · simp only [hgate, if_true]
                  by_cases hfk : updFieldKinds.contains (getEvent s.heap eid).event_type = true
                  · simp only [hfk, if_true]
                    cases hlo : findLastOpenId s.heap (getEvent s.heap eid).aggregate_id
                        s.allStates with
                    | none =>
                      simp only
                      exact frame_close_alloc n s hok _ _ _ _ (Or.inr rfl)
                    | some li =>
                      by_cases hdt : (stateAt s.heap li).effectiveDate =
                          (getEvent s.heap eid).event_date
                      · simp only [hdt, if_true, reduceIte]
                        exact frame_set_inplace n s hok _ li (findLastOpenId_mem hlo) _
                      · simp only [hdt, if_false, reduceIte]
                        exact frame_close_alloc n s hok _ _ _ _ (Or.inr rfl)
                  · simp only [Bool.not_eq_true] at hfk
                    simp only [hfk, Bool.false_eq_true, if_false]
                    exact ⟨hok, by simp⟩
                · simp only [Bool.not_eq_true] at hgate
                  simp only [hgate, Bool.false_eq_true, if_false]
                  exact ⟨hok, by simp⟩
            · have h5a : ¬ (getEvent s.heap eid).event_type = "geometry_updated" :=
                fun hh => h5 (Or.inl hh)
              have h5b : ¬ (getEvent s.heap eid).event_type = "Service Area Change" :=
                fun hh => h5 (Or.inr hh)
              simp only [Bool.not_eq_true] at h6
              simp only [heapStep, h1, h2, h3, h4, h5a, h5b, h6, String.reduceEq, if_true,
                if_false, reduceIte, Bool.false_eq_true]
              exact ⟨hok, by simp⟩

theorem foldl_heapStep_frame (gm : GeoMap) (n : Nat) :
    ∀ (ids : List Nat) (s : HSt), heapOk n s →
    heapOk n (ids.foldl (heapStep gm) s) ∧
      (ids.foldl (heapStep gm) s).heap.take n = s.heap.take n := by
  intro ids
  induction ids with
  | nil => exact fun s h => ⟨h, rfl⟩
  | cons i rest ih =>
    intro s hs
    obtain ⟨h1, h2⟩ := heapStep_frame gm n s i hs
    obtain ⟨g1, g2⟩ := ih (heapStep gm s i) h1
    exact ⟨g1, by rw [List.foldl_cons, g2, h2]⟩

theorem finalizePass_take (n : Nat) (s1 : HSt) (hids : ∀ i ∈ s1.allStates, n ≤ i) :
    (finalizePass s1).heap.take n = s1.heap.take n := by
  unfold finalizePass
  have main : ∀ (ids : List Nat) (s : HSt), (∀ i ∈ ids, n ≤ i) →
      ((ids.foldl (fun s i =>
          { s with heap := s.heap.set i (Obj.stateObj (finalizeOne (stateAt s.heap i))) })
        s).heap).take n = s.heap.take n := by
    intro ids
    induction ids with
    | nil => exact fun s _ => rfl
    | cons i rest ih =>
      intro s hin
      rw [List.foldl_cons, ih _ (fun j hj => hin j (List.mem_cons_of_mem i hj))]
      exact take_set_of_le s.heap i _ n (hin i (List.mem_cons_self i rest))
  exact main s1.allStates s1 hids

/-- The heap encoding of the spec's example scenario: the events array
object, five event records and their payload objects. -/
def demoHeap : List Obj :=
  [Obj.arrObj [1, 3, 5, 7, 9],
   Obj.evObj "acme-springfield" 100 "service_testing" 2,
   Obj.datObj { platform := some "TestApp" },
   Obj.evObj "acme-springfield" 300 "service_created" 4,
   Obj.datObj { vehicle_types := some "ModelX", fares := some "No", access := some "Waitlist" },
   Obj.evObj "acme-springfield" 300 "access_policy_changed" 6,
   Obj.datObj { new_access := some "Public" },
   Obj.evObj "acme-springfield" 600 "fares_policy_changed" 8,
   Obj.datObj { new_fares := some "Yes" },
   Obj.evObj "acme-springfield" 900 "service_ended" 10,
   Obj.datObj {}]

/-- The store-passing engine computes the same states as the pure
engine on the example scenario (the heap embedding refines the pure one
by erasing the store). -/
theorem runHeap_agrees_example :
    ((runHeap [] demoHeap 0).allStates.map (fun i => stateAt (runHeap [] demoHeap 0).heap i)) =
      buildServiceAreasFromEvents exampleEvents [] := by
  decide

/-- C10.  `buildServiceAreasFromEvents` never mutates its input: in the
store-passing embedding, after the run every object that existed before
the call — the events array object (hence its original order), every
event record and every `event_data` payload — is unchanged; the engine
sorts a freshly allocated copy of the array and writes only to state
objects it allocated itself during the run (all of which live past the
input prefix of the heap). -/
theorem C10_no_input_mutation (gm : GeoMap) (h0 : List Obj) (arrId : Nat) :
    (runHeap gm h0 arrId).heap.take h0.length = h0 ∧
    ∀ i, i < h0.length → (runHeap gm h0 arrId).heap[i]? = h0[i]? := by
  have hok0 : heapOk h0.length
      ({ heap := h0 ++ [Obj.arrObj (sortedIdsOf h0 arrId)]
         currentServiceStates := []
         allStates := [] } : HSt) := by
    refine ⟨by simp, ?_, ?_⟩ <;> intro p hp <;> simp at hp
  obtain ⟨hok1, htake1⟩ := foldl_heapStep_frame gm h0.length (sortedIdsOf h0 arrId) _ hok0
  have hmain : (runHeap gm h0 arrId).heap.take h0.length = h0 := by
    unfold runHeap
    rw [finalizePass_take h0.length _ hok1.2.2, htake1]
    show (h0 ++ [Obj.arrObj (sortedIdsOf h0 arrId)]).take h0.length = h0
    rw [List.take_append_of_le_length (le_refl _), List.take_length]
  refine ⟨hmain, fun i hi => ?_⟩
  have h1 : ((runHeap gm h0 arrId).heap.take h0.length)[i]? = h0[i]? := by
    rw [hmain]
  rw [← h1, List.getElem?_take_of_lt hi]

/-- C10, witness: on the example heap, the whole input prefix (array,
events and payloads) reads back unchanged after the run. -/
theorem C10_no_input_mutation_witness :
    (runHeap [] demoHeap 0).heap.take demoHeap.length = demoHeap ∧
    (runHeap [] demoHeap 0).heap[0]? = demoHeap[0]? :=
  ⟨(C10_no_input_mutation [] demoHeap 0).1,
   (C10_no_input_mutation [] demoHeap 0).2 0 (by decide)⟩
